import Mathlib

/-!
# Verification of the GITRIS backend Tetris core

A shallow embedding, in Lean 4, of the Go sources of the GITRIS backend:
the board model (`internal/models/tetris/board.go`), the piece model
(`internal/models/tetris/tetrimino.go`), the rules engine
(`internal/services/tetris/game_logic.go`), the player state and bag
generator (`game_state.go`), and the session manager
(`game_session_manager.go`).

Conventions used throughout:
* Go `int` is modelled as `Int`; machine overflow is irrelevant at the
  magnitudes involved.
* Go maps with string keys of the shape `"y_x"` (board cells) and
  `"rot_r_x_y"` (piece score payloads) are modelled as maps keyed by the
  decoded tuples; the Go encodings are injective on the domains used.
  Board-cell score maps become functions `Nat × Nat → Option Int`
  (`none` = key absent); piece payloads become association lists so that
  Go's `len(m) == 0` test stays expressible.
* `math/rand.Rand` is modelled as an arbitrary stream of naturals plus a
  cursor; `Intn n` reads the next stream value modulo `n`, and
  `Shuffle` performs the Fisher-Yates pass of Go's implementation.
* Timestamps (`time.Time` / `time.Duration`) are modelled as `Int`
  milliseconds; functions that read the wall clock take `now` as an
  explicit argument.
-/

/-- Cell contents of a board square (`BlockType` in board.go).
`BlockI` … `BlockL` correspond to `PieceType + 1`. -/
inductive BlockType where
  | BlockEmpty
  | BlockI
  | BlockO
  | BlockT
  | BlockS
  | BlockZ
  | BlockJ
  | BlockL
  | BlockGarbage
deriving DecidableEq, Repr

/-- The seven tetromino kinds (`PieceType` in tetrimino.go). -/
inductive PieceType where
  | I
  | O
  | T
  | S
  | Z
  | J
  | L
deriving DecidableEq, Repr

/-- `BoardWidth` in board.go. -/
def BoardWidth : Nat := 10

/-- `BoardHeight` in board.go. -/
def BoardHeight : Nat := 20

/-- The board, rows top to bottom (`Board [BoardHeight][BoardWidth]BlockType`
in board.go); well-formed boards have 20 rows of 10 cells. -/
abbrev Board : Type := List (List BlockType)

/-- An all-empty row. -/
def emptyRow : List BlockType := List.replicate BoardWidth BlockType.BlockEmpty

/-- `NewBoard` in board.go: the all-empty board. -/
def NewBoard : Board := List.replicate BoardHeight emptyRow

/-- Well-formedness of a board: exactly 20 rows of exactly 10 cells. -/
def Board.WF (b : Board) : Prop :=
  b.length = BoardHeight ∧ ∀ row ∈ b, row.length = BoardWidth

/-- The fixed block-offset tables `pieceShapes` of tetrimino.go,
`[PieceType][RotationIndex][BlockIndex](x, y)`, copied cell for cell. -/
def pieceShapes (t : PieceType) : List (List (Int × Int)) :=
  match t with
  | .I => [[(0, 1), (1, 1), (2, 1), (3, 1)],
           [(2, 0), (2, 1), (2, 2), (2, 3)],
           [(0, 2), (1, 2), (2, 2), (3, 2)],
           [(1, 0), (1, 1), (1, 2), (1, 3)]]
  | .O => [[(0, 0), (1, 0), (0, 1), (1, 1)]]
  | .T => [[(1, 0), (0, 1), (1, 1), (2, 1)],
           [(1, 0), (1, 1), (2, 1), (1, 2)],
           [(0, 1), (1, 1), (2, 1), (1, 2)],
           [(0, 1), (1, 0), (1, 1), (1, 2)]]
  | .S => [[(1, 0), (2, 0), (0, 1), (1, 1)],
           [(1, 0), (1, 1), (2, 1), (2, 2)],
           [(1, 1), (2, 1), (0, 2), (1, 2)],
           [(0, 0), (0, 1), (1, 1), (1, 2)]]
  | .Z => [[(0, 0), (1, 0), (1, 1), (2, 1)],
           [(2, 0), (1, 1), (2, 1), (1, 2)],
           [(0, 1), (1, 1), (1, 2), (2, 2)],
           [(1, 0), (0, 1), (1, 1), (0, 2)]]
  | .J => [[(0, 0), (0, 1), (1, 1), (2, 1)],
           [(1, 0), (2, 0), (1, 1), (1, 2)],
           [(0, 1), (1, 1), (2, 1), (2, 2)],
           [(1, 0), (1, 1), (0, 2), (1, 2)]]
  | .L => [[(2, 0), (0, 1), (1, 1), (2, 1)],
           [(1, 0), (1, 1), (1, 2), (2, 2)],
           [(0, 1), (1, 1), (2, 1), (0, 2)],
           [(0, 0), (1, 0), (1, 1), (1, 2)]]

/-- `GetBlocksAtRotation` in tetrimino.go: rotation degrees are divided by
90 (Go integer division, toward zero) to index the shape table; the O
piece and out-of-range indices fall back to the 0-degree shape. -/
def GetBlocksAtRotation (t : PieceType) (rotation : Int) : List (Int × Int) :=
  let shapeData := pieceShapes t
  let rotIdx : Int := Int.tdiv rotation 90
  if t = PieceType.O then shapeData.getD 0 []
  else if rotIdx < 0 ∨ (shapeData.length : Int) ≤ rotIdx then shapeData.getD 0 []
  else shapeData.getD rotIdx.toNat []

/-- Score payload of a piece: Go `map[string]int` with keys
`"rot_<rotation>_<dx>_<dy>"`, decoded to the key tuple
`(rotation, dx, dy)`.  An association list so `len == 0` is expressible;
keys are unique by construction at every creation site. -/
abbrev ScoreData : Type := List ((Int × Int × Int) × Int)

/-- Go map lookup on a score payload (first matching key). -/
def lookupSD (sd : ScoreData) (key : Int × Int × Int) : Option Int :=
  match sd with
  | [] => none
  | (k, v) :: rest => if key = k then some v else lookupSD rest key

/-- `Piece` in tetrimino.go. -/
structure Piece where
  type : PieceType
  x : Int
  y : Int
  rotation : Int
  scoreData : ScoreData
deriving DecidableEq, Repr

/-- `Piece.Blocks` in tetrimino.go. -/
def Piece.Blocks (p : Piece) : List (Int × Int) :=
  GetBlocksAtRotation p.type p.rotation

/-- Reading board cell `b[y][x]`; callers guard the ranges as the Go code
does. -/
def boardCell (b : Board) (y x : Int) : BlockType :=
  (b.getD y.toNat []).getD x.toNat BlockType.BlockEmpty

/-- Writing board cell `b[y][x] = v`. -/
def setCell (b : Board) (y x : Int) (v : BlockType) : Board :=
  b.set y.toNat ((b.getD y.toNat []).set x.toNat v)

/-- `Board.HasCollision` in board.go: a block collides if it leaves the
side or bottom walls or lands on a non-empty cell; rows above the board
(`y < 0`) only collide with walls. -/
def HasCollision (b : Board) (p : Piece) (dx dy : Int) : Bool :=
  p.Blocks.any fun blk =>
    let x := p.x + blk.1 + dx
    let y := p.y + blk.2 + dy
    if x < 0 ∨ (BoardWidth : Int) ≤ x ∨ (BoardHeight : Int) ≤ y then true
    else if 0 ≤ y ∧ boardCell b y x ≠ BlockType.BlockEmpty then true
    else false

/-- Go's `BlockType(p.Type + 1)` conversion used by `MergePiece`. -/
def pieceBlockType : PieceType → BlockType
  | .I => .BlockI
  | .O => .BlockO
  | .T => .BlockT
  | .S => .BlockS
  | .Z => .BlockZ
  | .J => .BlockJ
  | .L => .BlockL

/-- `Board.MergePiece` in board.go: write the piece's block type into every
block cell that lies inside the board; cells outside are silently
dropped. -/
def MergePiece (b : Board) (p : Piece) : Board :=
  p.Blocks.foldl
    (fun bd blk =>
      let x := p.x + blk.1
      let y := p.y + blk.2
      if 0 ≤ x ∧ x < (BoardWidth : Int) ∧ 0 ≤ y ∧ y < (BoardHeight : Int) then
        setCell bd y x (pieceBlockType p.type)
      else bd)
    b

/-- Per-cell contribution scores: Go `map[string]int` keyed `"y_x"`,
decoded to `(y, x)`; `none` models an absent key. -/
abbrev ScoreMap : Type := (Nat × Nat) → Option Int

/-- Point update of a score map (Go `m[key] = v`). -/
def ScoreMap.insert (m : ScoreMap) (key : Nat × Nat) (v : Int) : ScoreMap :=
  fun k => if k = key then some v else m k

/-- A row is full iff all its cells are non-empty (the inner loop of
`ClearLines`). -/
def isLineFull (row : List BlockType) : Bool :=
  row.all fun c => c != BlockType.BlockEmpty

/-- The per-row payout of `ClearLines`: sum of the per-cell scores across
the ten columns of row `y`, falling back to 10 for absent keys.  (Go
accumulates this in the same loop as the fullness test and discards the
partial sum for non-full rows.) -/
def rowScore (contributionScores : ScoreMap) (y : Nat) : Int :=
  (List.range BoardWidth).foldl
    (fun acc x => acc + ((contributionScores (y, x)).getD 10)) 0

/-- Accumulator of the `ClearLines` scan: cleared count, total payout, and
the surviving rows in the order Go copies them (bottom-most first, i.e.
descending destination `destY`). -/
structure ClearAcc where
  cleared : Nat
  points : Int
  kept : List (List BlockType)
deriving DecidableEq, Repr

/-- The row scan of `ClearLines`, over `(y, row)` pairs listed in Go's
visiting order (`y = BoardHeight-1` down to `0`): full rows are counted
and paid out, non-full rows are appended to the kept list (Go copies them
to `destY`, which decreases by one per kept row). -/
def clearScan (contributionScores : ScoreMap)
    (rows : List (Nat × List BlockType)) : ClearAcc :=
  rows.foldl
    (fun acc yrow =>
      if isLineFull yrow.2 then
        { acc with
          cleared := acc.cleared + 1
          points := acc.points + rowScore contributionScores yrow.1 }
      else { acc with kept := acc.kept ++ [yrow.2] })
    ⟨0, 0, []⟩

/-- `Board.ClearLines` in board.go.  Scans rows bottom to top, removes the
full ones, packs the survivors to the bottom of a fresh board (kept rows
land at `destY = 19, 18, …`; the rows above stay empty), and returns the
new board with the cleared-line count and the payout. -/
def ClearLines (b : Board) (contributionScores : ScoreMap) :
    Board × Nat × Int :=
  let acc := clearScan contributionScores b.enum.reverse
  let newBoard : Board :=
    List.replicate (BoardHeight - acc.kept.length) emptyRow ++ acc.kept.reverse
  (newBoard, acc.cleared, acc.points)

/-! ## The RNG model and the 7-bag generator (game_state.go) -/

/-- Abstract model of a seeded `math/rand.Rand`: an arbitrary stream of
naturals and a cursor.  Quantifying over `stream` quantifies over every
seed. -/
structure RNG where
  stream : Nat → Nat
  pos : Nat

/-- `r.Intn(n)`: the next stream value reduced into `[0, n)`, advancing
the cursor. -/
def RNG.intn (g : RNG) (n : Nat) : Nat × RNG :=
  (g.stream g.pos % n, { g with pos := g.pos + 1 })

/-- The swap passed by Go to `rand.Shuffle`:
`bag[i], bag[j] = bag[j], bag[i]` (identity when an index is out of
range, which never happens at the call sites). -/
def listSwap {α : Type} (l : List α) (i j : Nat) : List α :=
  match l[i]?, l[j]? with
  | some vi, some vj => (l.set i vj).set j vi
  | _, _ => l

/-- The Fisher-Yates pass of Go's `rand.Shuffle`: for `i = n-1` down to
`1`, draw `j := Intn(i+1)` and swap positions `i` and `j`.  The fuel
argument counts the remaining iterations, so `fuel = k` processes index
`i = k`. -/
def shuffleSteps {α : Type} (l : List α) (g : RNG) : Nat → List α × RNG
  | 0 => (l, g)
  | k + 1 =>
    let (j, g') := g.intn (k + 2)
    shuffleSteps (listSwap l (k + 1) j) g' k

/-- `r.Shuffle(len(bag), swap)` on a list. -/
def shuffle {α : Type} (l : List α) (g : RNG) : List α × RNG :=
  shuffleSteps l g (l.length - 1)

/-- The fresh bag of `generatePieceQueue`, before shuffling. -/
def canonicalBag : List PieceType :=
  [.I, .O, .T, .S, .Z, .J, .L]

/-- The bag constructed by one `generatePieceQueue` call: shuffle the
seven types; if the queue had a last piece and the new bag starts with
that same piece, swap the head with a random position in `1..6`. -/
def makeBag (lastPiece : Option PieceType) (g : RNG) : List PieceType × RNG :=
  let (bag, g1) := shuffle canonicalBag g
  match lastPiece with
  | some lp =>
    if 1 < bag.length ∧ bag[0]? = some lp then
      let (k, g2) := g1.intn (bag.length - 1)
      (listSwap bag 0 (k + 1), g2)
    else (bag, g1)
  | none => (bag, g1)

/-- `generatePieceQueue` in game_state.go: append a fresh (adjusted) bag
to the queue; the "last piece" used for the adjacent-duplicate adjustment
is the last element of the current queue, if any. -/
def generatePieceQueue (q : List PieceType) (g : RNG) :
    List PieceType × RNG :=
  let (bag, g') := makeBag q.getLast? g
  (q ++ bag, g')

/-- The queue discipline of `GetNextPieceFromQueue` in game_state.go,
restricted to the piece-type stream: refill when fewer than 7 pieces
remain, then pop the head.  (Go indexes `pieceQueue[0]` directly; after
the refill the queue is never empty, and `.I` is an arbitrary default that
is never read.) -/
def popPieceType (q : List PieceType) (g : RNG) :
    PieceType × List PieceType × RNG :=
  let (q1, g1) := if q.length < 7 then generatePieceQueue q g else (q, g)
  (q1.headD .I, (q1.tail, g1))

/-- The first `n` piece types drawn from queue state `(q, g)`. -/
def popSeq (q : List PieceType) (g : RNG) : Nat → List PieceType
  | 0 => []
  | n + 1 =>
    let (t, q', g') := popPieceType q g
    t :: popSeq q' g' n

/-- Bag `k` of the stream started from generator `g` (bag 0 sees no last
piece; bag `k+1` sees the last piece of bag `k`). -/
def bagSeq (g : RNG) : Nat → List PieceType × RNG
  | 0 => makeBag none g
  | k + 1 => makeBag (bagSeq g k).1.getLast? (bagSeq g k).2

/-- Concatenation of bags `0 … k`. -/
def tapeTo (g : RNG) : Nat → List PieceType
  | 0 => (bagSeq g 0).1
  | k + 1 => tapeTo g k ++ (bagSeq g (k + 1)).1

/-- Element `i` of the infinite output stream: position `i % 7` of bag
`i / 7`. -/
def outAt (g : RNG) (i : Nat) : PieceType :=
  ((bagSeq g (i / 7)).1).getD (i % 7) .I

def gCtr : RNG :=
  ⟨fun idx => [0, 0, 0, 0, 0, 0, 6, 5, 4, 3, 2, 1, 0].getD idx 0, 0⟩

/-- `CalculateScore` in game_logic.go: the rule bonus for a line clear.
Go computes the back-to-back branch as `int(float64(score) * 1.5)`;
since `1.5·s = 3·s/2` and the float64 product is exact for every
`|score| < 2^51`, this is `Int.tdiv (score * 3) 2` (t-division matches
Go's truncation toward zero). -/
def CalculateScore (clearedLines level consecutiveClears : Int)
    (backToBack : Bool) : Int :=
  let baseScore : Int :=
    if clearedLines = 1 then 100
    else if clearedLines = 2 then 300
    else if clearedLines = 3 then 500
    else if clearedLines = 4 then 800
    else 0
  let score := baseScore * level
  let score :=
    if 1 < consecutiveClears then score + 50 * (consecutiveClears - 1) * level
    else score
  if backToBack ∧ 0 < clearedLines then Int.tdiv (score * 3) 2 else score

/-- Spec-side base-score table of claim C5: 1,2,3,4 ↦ 100,300,500,800
(stated from the claim's words, for comparison with `CalculateScore`). -/
def specBaseScore (cl : Int) : Int :=
  if cl = 1 then 100 else if cl = 2 then 300 else if cl = 3 then 500 else 800

/-- Spec-side pre-multiplier of claim C5:
`base(cl)·level + (if cc > 1 then 50·(cc−1)·level else 0)` (stated from
the claim's words). -/
def specPreBonus (cl level cc : Int) : Int :=
  specBaseScore cl * level + (if 1 < cc then 50 * (cc - 1) * level else 0)

/-- `models.Position`: one deck block with its score. -/
structure Position where
  x : Int
  y : Int
  score : Int
deriving DecidableEq, Repr

/-- `DeckPlacementPiece` in game_state.go. -/
structure DeckPlacementPiece where
  type : PieceType
  rotation : Int
  blocks : List Position
deriving DecidableEq, Repr

/-- `models.Deck` (identity fields only; the remaining fields play no role
in the claims). -/
structure Deck where
  id : String
  userID : String
deriving DecidableEq, Repr

/-- `PlayerGameState` in game_state.go.  The mutex is dropped — the
embedding is sequential. -/
structure PlayerGameState where
  userID : String
  board : Board
  currentPiece : Option Piece
  nextPiece : Option Piece
  heldPiece : Option Piece
  score : Int
  linesCleared : Int
  level : Int
  isGameOver : Bool
  deck : Option Deck
  pieceQueue : List PieceType
  randGenerator : RNG
  lastFallTime : Int
  contributionScores : ScoreMap
  currentPieceScores : ScoreMap
  deckPlacements : List DeckPlacementPiece
  consecutiveClears : Int
  backToBack : Bool
  hasUsedHold : Bool

/-- `getPieceScoreFromDeck` in game_state.go: find the first deck entry of
the given type and build the score payload, pairing, for each of the four
"rotation states" `0,1,2,3`, the blocks of `GetBlocksAtRotation(rotation)`
in table order with the deck blocks in order (default 100 past the end).
(As in Go, the loop variable `rotation` runs over `0..3`, not degrees.) -/
def getPieceScoreFromDeck (s : PlayerGameState) (pieceType : PieceType) :
    Option Piece :=
  if s.deckPlacements.isEmpty then none
  else
    match s.deckPlacements.find? (fun dp => decide (dp.type = pieceType)) with
    | none => none
    | some selected =>
      let sd : ScoreData :=
        (List.range 4).foldl
          (fun sd rotation =>
            let blocks := GetBlocksAtRotation pieceType (rotation : Int)
            sd ++ blocks.enum.map (fun iblk =>
              (((rotation : Int), iblk.2.1, iblk.2.2),
               (selected.blocks.getD iblk.1 ⟨0, 0, 100⟩).score)))
          []
      some { type := pieceType, x := 0, y := 0, rotation := 0, scoreData := sd }

/-- `GetNextPieceFromQueue` in game_state.go: refill-and-pop the type
queue, then attach the deck score payload (or an empty payload; Go's zero
values give `x = y = rotation = 0`). -/
def GetNextPieceFromQueue (s : PlayerGameState) : Piece × PlayerGameState :=
  let tqg := popPieceType s.pieceQueue s.randGenerator
  let s' := { s with pieceQueue := tqg.2.1, randGenerator := tqg.2.2 }
  match getPieceScoreFromDeck s tqg.1 with
  | some p => (p, s')
  | none => ({ type := tqg.1, x := 0, y := 0, rotation := 0, scoreData := [] }, s')

/-- `spawnPieceAtCenter` in game_logic.go: all pieces spawn at `y = 1`; I
at `W/2−2`, every other type at `W/2−1`. -/
def spawnPieceAtCenter (t : PieceType) : Int × Int :=
  match t with
  | .I => ((BoardWidth : Int) / 2 - 2, 1)
  | .O => ((BoardWidth : Int) / 2 - 1, 1)
  | _ => ((BoardWidth : Int) / 2 - 1, 1)

/-- `updateCurrentPieceScores` in game_state.go: rebuild the broadcast map
of the falling piece's per-cell scores: payload score when present and
positive, else the board's contribution score, else 100. -/
def updateCurrentPieceScores (s : PlayerGameState) : PlayerGameState :=
  match s.currentPiece with
  | none => s
  | some p =>
    let newScores : ScoreMap :=
      p.Blocks.foldl
        (fun m blk =>
          let boardX := p.x + blk.1
          let boardY := p.y + blk.2
          if 0 ≤ boardX ∧ boardX < (BoardWidth : Int) ∧
              0 ≤ boardY ∧ boardY < (BoardHeight : Int) then
            let fallback := (s.contributionScores (boardY.toNat, boardX.toNat)).getD 100
            let score : Int :=
              match lookupSD p.scoreData (p.rotation, blk.1, blk.2) with
              | some ps => if 0 < ps then ps else fallback
              | none => fallback
            m.insert (boardY.toNat, boardX.toNat) score
          else m)
        (fun _ => none)
    { s with currentPieceScores := newScores }

/-- `SpawnNewPiece` in game_state.go: promote the next piece (or pop the
first), pop a new next piece, position at the spawn point with rotation 0,
clear the hold flag, refresh the current-piece scores, and flip game-over
on a spawn collision.  (When the piece to promote is `nil` Go would panic
at `spawnPieceAtCenter`; that state is unreachable in the game, where
`NextPiece` is always set.) -/
def SpawnNewPiece (s : PlayerGameState) : PlayerGameState :=
  let curs1 : Option Piece × PlayerGameState :=
    match s.currentPiece with
    | none =>
      let ps' := GetNextPieceFromQueue s
      (some ps'.1, ps'.2)
    | some _ => (s.nextPiece, s)
  let nps2 := GetNextPieceFromQueue curs1.2
  match curs1.1 with
  | some p =>
    let xy := spawnPieceAtCenter p.type
    let p' := { p with x := xy.1, y := xy.2, rotation := 0 }
    let s3 := { nps2.2 with currentPiece := some p', nextPiece := some nps2.1,
                            hasUsedHold := false }
    let s4 := updateCurrentPieceScores s3
    if HasCollision s4.board p' 0 0 then { s4 with isGameOver := true } else s4
  | none =>
    { nps2.2 with currentPiece := none, nextPiece := some nps2.1,
                  hasUsedHold := false }

/-- `GetFallInterval` in game_logic.go, in milliseconds:
`max(100, 600 − (level−1)·40)`. -/
def GetFallInterval (level : Int) : Int :=
  let interval := 600 - (level - 1) * 40
  if interval < 100 then 100 else interval

/-- The loop body of `updateContributionScoresFromPiece`: write the
payload score of one block into the per-cell map when the block lies on
the board and the payload has a positive score for
`(rotation, dx, dy)`. -/
def projectScoreStep (p : Piece) (m : ScoreMap) (blk : Int × Int) : ScoreMap :=
  let boardX := p.x + blk.1
  let boardY := p.y + blk.2
  if 0 ≤ boardX ∧ boardX < (BoardWidth : Int) ∧
      0 ≤ boardY ∧ boardY < (BoardHeight : Int) then
    match lookupSD p.scoreData (p.rotation, blk.1, blk.2) with
    | some sc =>
      if 0 < sc then m.insert (boardY.toNat, boardX.toNat) sc else m
    | none => m
  else m

/-- `updateContributionScoresFromPiece` in game_logic.go: for each block
of the locked piece that lies on the board, write the piece's payload
score for `(rotation, dx, dy)` into the per-cell map — but only when the
payload has that key with a positive score; an empty (or `nil`) payload
skips the whole projection. -/
def updateContributionScoresFromPiece (s : PlayerGameState)
    (piece? : Option Piece) : PlayerGameState :=
  match piece? with
  | none => s
  | some p =>
    if p.scoreData.length = 0 then s
    else
      { s with contributionScores :=
          (p.Blocks.foldl (projectScoreStep p) s.contributionScores) }

/-- `handlePieceLock` in game_logic.go: project the payload into the
per-cell map, clear lines and pay out, apply the rule bonus and update the
combo counters, recompute the level, and spawn the next piece. -/
def handlePieceLock (s : PlayerGameState) : PlayerGameState :=
  let s1 := updateContributionScoresFromPiece s s.currentPiece
  let res := ClearLines s1.board s1.contributionScores
  let s2 := { s1 with board := res.1,
                      linesCleared := s1.linesCleared + (res.2.1 : Int),
                      score := s1.score + res.2.2 }
  let s3 :=
    if 0 < res.2.1 then
      let bonus := CalculateScore (res.2.1 : Int) s2.level s2.consecutiveClears
        s2.backToBack
      let sa := { s2 with score := s2.score + bonus }
      { sa with consecutiveClears := sa.consecutiveClears + 1,
                backToBack := decide (res.2.1 = 4),
                level := Int.tdiv sa.linesCleared 5 + 1 }
    else { s2 with consecutiveClears := 0, backToBack := false }
  SpawnNewPiece s3

/-- The `dropDistance` loop of the hard-drop branch: count how many rows
the piece can descend before colliding.  The Go loop is unbounded; every
shape in the tables has a block with `dy ≥ 0`, so it exits no later than
iteration `20 − p.y`, and the fuel covers that bound. -/
def dropDistanceAux (b : Board) (p : Piece) : Nat → Nat → Nat
  | 0, d => d
  | fuel + 1, d =>
    if HasCollision b p 0 ((d : Int) + 1) then d
    else dropDistanceAux b p fuel (d + 1)

/-- The number of rows a hard drop descends. -/
def dropDistance (b : Board) (p : Piece) : Nat :=
  dropDistanceAux b p (Int.toNat (21 - p.y)) 0

/-- `ApplyPlayerInput` in game_logic.go.  Returns the new state and the
`moved` flag.  Inputs are ignored on game-over or a missing current piece;
`%` on rotations is Go's remainder (`Int.tmod`). -/
def ApplyPlayerInput (s : PlayerGameState) (action : String) :
    PlayerGameState × Bool :=
  if s.isGameOver then (s, false)
  else
    match s.currentPiece with
    | none => (s, false)
    | some p =>
      let step : PlayerGameState × Bool :=
        if action = "left" ∨ action = "move_left" then
          if ¬ HasCollision s.board p (-1) 0 then
            ({ s with currentPiece := some { p with x := p.x - 1 } }, true)
          else (s, false)
        else if action = "right" ∨ action = "move_right" then
          if ¬ HasCollision s.board p 1 0 then
            ({ s with currentPiece := some { p with x := p.x + 1 } }, true)
          else (s, false)
        else if action = "down" ∨ action = "soft_drop" then
          if ¬ HasCollision s.board p 0 1 then
            ({ s with currentPiece := some { p with y := p.y + 1 },
                      score := s.score + 1 }, true)
          else (s, false)
        else if action = "hard_drop" then
          let d := dropDistance s.board p
          let pD := { p with y := p.y + (d : Int) }
          let s1 :=
            if 0 < d then
              { s with currentPiece := some pD, score := s.score + (d : Int) * 2 }
            else s
          let s2 := { s1 with board := MergePiece s1.board pD }
          (handlePieceLock s2, decide (0 < d))
        else if action = "rotate_right" ∨ action = "rotate" then
          if p.type = PieceType.O then (s, false)
          else
            let p' := { p with rotation := Int.tmod (p.rotation + 90) 360 }
            if HasCollision s.board p' 0 0 then (s, false)
            else ({ s with currentPiece := some p' }, true)
        else if action = "rotate_left" then
          if p.type = PieceType.O then (s, false)
          else
            let p' := { p with rotation := Int.tmod (p.rotation - 90 + 360) 360 }
            if HasCollision s.board p' 0 0 then (s, false)
            else ({ s with currentPiece := some p' }, true)
        else if action = "hold" then
          let held : PlayerGameState × Bool :=
            if ¬ s.hasUsedHold then
              let s0 := { s with hasUsedHold := true }
              let s1 :=
                match s0.heldPiece with
                | none =>
                  let sc := { s0 with currentPiece := s0.nextPiece }
                  let npsc := GetNextPieceFromQueue sc
                  { npsc.2 with nextPiece := some npsc.1 }
                | some hp => { s0 with currentPiece := some hp }
              let s2 :=
                match s1.currentPiece with
                | none =>
                  let cpsa := GetNextPieceFromQueue s1
                  let sa := { cpsa.2 with currentPiece := some cpsa.1 }
                  let npsb := GetNextPieceFromQueue sa
                  { npsb.2 with nextPiece := some npsb.1 }
                | some cp =>
                  let xy := spawnPieceAtCenter cp.type
                  let cp' := { cp with x := xy.1, y := xy.2, rotation := 0 }
                  { s1 with currentPiece := some cp' }
              ({ s2 with heldPiece := some p }, true)
            else (s, false)
          let s2 :=
            match held.1.currentPiece with
            | some cp =>
              if HasCollision held.1.board cp 0 0 then
                { held.1 with isGameOver := true }
              else held.1
            | none => held.1
          (s2, held.2)
        else (s, false)
      if step.2 ∧ step.1.currentPiece.isSome ∧ action ≠ "hard_drop" then
        (updateCurrentPieceScores step.1, step.2)
      else step

/-- `AutoFall` in game_logic.go, with the wall clock passed explicitly:
descend one row when the gravity interval has elapsed (or the clock has
not advanced at all — Go's test-environment escape), else merge and run
the lock sequence. -/
def AutoFall (s : PlayerGameState) (now : Int) : PlayerGameState × Bool :=
  if s.isGameOver then (s, false)
  else
    match s.currentPiece with
    | none => (s, false)
    | some p =>
      let fallInterval := GetFallInterval s.level
      let timePassed := now - s.lastFallTime
      if fallInterval ≤ timePassed ∨ timePassed = 0 then
        if ¬ HasCollision s.board p 0 1 then
          ({ s with currentPiece := some { p with y := p.y + 1 },
                    lastFallTime := now }, true)
        else
          let s1 := { s with board := MergePiece s.board p }
          let s2 := handlePieceLock s1
          ({ s2 with lastFallTime := now }, false)
      else (s, false)


/-- `GameTimeLimit` (100 s), in milliseconds. -/
def GameTimeLimit : Int := 100 * 1000

/-- The deck repository (`GetTetriminoPlacementsByDeckID`) as an oracle:
`none` models a lookup error.  The JSON decoding and unknown-type
skipping of game_state.go are modelled as already-decoded placements. -/
abbrev DeckRepo : Type := String → Option (List DeckPlacementPiece)

/-- The random board-score initialisation of `NewPlayerGameState`:
`r.Intn(400) + 100` for each of the 200 cells, consumed in row-major
order. -/
def randomScores (g : RNG) : ScoreMap × RNG :=
  (fun k =>
    if k.1 < BoardHeight ∧ k.2 < BoardWidth then
      some (((g.stream (g.pos + (k.1 * BoardWidth + k.2)) % 400 : Nat) : Int) + 100)
    else none,
   { g with pos := g.pos + BoardHeight * BoardWidth })

/-- `buildContributionScoresFromDeck` in game_state.go: default every cell
to 100, then overwrite with the (in-bounds) deck block scores. -/
def buildContributionScoresFromDeck
    (placements : List DeckPlacementPiece) : ScoreMap :=
  let base : ScoreMap := fun k =>
    if k.1 < BoardHeight ∧ k.2 < BoardWidth then some 100 else none
  placements.foldl
    (fun m dp =>
      dp.blocks.foldl
        (fun m blkP =>
          if 0 ≤ blkP.x ∧ blkP.x < (BoardWidth : Int) ∧
              0 ≤ blkP.y ∧ blkP.y < (BoardHeight : Int) then
            m.insert (blkP.y.toNat, blkP.x.toNat) blkP.score
          else m)
        m)
    base

/-- `NewPlayerGameState` in game_state.go (random-score version). -/
def NewPlayerGameState (userID : String) (deck : Option Deck) (g : RNG)
    (now : Int) : PlayerGameState :=
  let rs := randomScores g
  let s0 : PlayerGameState :=
    { userID := userID, board := NewBoard, currentPiece := none,
      nextPiece := none, heldPiece := none, score := 0, linesCleared := 0,
      level := 1, isGameOver := false, deck := deck, pieceQueue := [],
      randGenerator := rs.2, lastFallTime := now,
      contributionScores := rs.1, currentPieceScores := fun _ => none,
      deckPlacements := [], consecutiveClears := 0, backToBack := false,
      hasUsedHold := false }
  let qg := generatePieceQueue s0.pieceQueue s0.randGenerator
  SpawnNewPiece { s0 with pieceQueue := qg.1, randGenerator := qg.2 }

/-- `NewPlayerGameStateWithDeckPlacements` in game_state.go: `none` models
the Go error return (deck-placement fetch failed); the caller falls back
to `NewPlayerGameState`. -/
def NewPlayerGameStateWithDeckPlacements (userID : String)
    (deck : Option Deck) (repo : DeckRepo) (g : RNG) (now : Int) :
    Option PlayerGameState :=
  match deck with
  | some d =>
    match repo d.id with
    | none => none
    | some placements =>
      let s0 : PlayerGameState :=
        { userID := userID, board := NewBoard, currentPiece := none,
          nextPiece := none, heldPiece := none, score := 0,
          linesCleared := 0, level := 1, isGameOver := false,
          deck := some d, pieceQueue := [], randGenerator := g,
          lastFallTime := now,
          contributionScores := buildContributionScoresFromDeck placements,
          currentPieceScores := fun _ => none,
          deckPlacements := placements, consecutiveClears := 0,
          backToBack := false, hasUsedHold := false }
      let qg := generatePieceQueue s0.pieceQueue s0.randGenerator
      some (SpawnNewPiece { s0 with pieceQueue := qg.1, randGenerator := qg.2 })
  | none => some (NewPlayerGameState userID none g now)

/-- `GameSession` (the session-manager view: both player states, status,
timestamps).  Channels are communication plumbing and are not modelled. -/
structure GameSession where
  id : String
  player1 : Option PlayerGameState
  player2 : Option PlayerGameState
  status : String
  startedAt : Int
  endedAt : Int
  timeLimit : Int

/-- `NewGameSession` in game_state.go: build Player1 (falling back to
random scores when the deck-placement fetch fails) and open the session
as `waiting`.  It never returns an error. -/
def NewGameSession (roomID player1ID : String) (player1Deck : Option Deck)
    (repo : DeckRepo) (g : RNG) (now : Int) : GameSession :=
  let p1 :=
    match NewPlayerGameStateWithDeckPlacements player1ID player1Deck repo g now with
    | some st => st
    | none => NewPlayerGameState player1ID player1Deck g now
  { id := roomID, player1 := some p1, player2 := none, status := "waiting",
    startedAt := 0, endedAt := 0, timeLimit := GameTimeLimit }

/-- `GameSession.SetPlayer2` in game_state.go. -/
def SetPlayer2 (gs : GameSession) (player2ID : String)
    (player2Deck : Option Deck) (repo : DeckRepo) (g : RNG) (now : Int) :
    GameSession :=
  let p2 :=
    match NewPlayerGameStateWithDeckPlacements player2ID player2Deck repo g now with
    | some st => st
    | none => NewPlayerGameState player2ID player2Deck g now
  { gs with player2 := some p2 }

/-- `GameSession.IsTimeUp`. -/
def IsTimeUp (gs : GameSession) (now : Int) : Bool :=
  if gs.status ≠ "playing" then false
  else decide (gs.timeLimit ≤ now - gs.startedAt)

/-- The session registry of the `SessionManager` (passcode → session).
The connection registry is passed as a predicate where needed. -/
structure SessionMgr where
  sessions : List (String × GameSession)

/-- Go map read `sm.sessions[pc]`. -/
def lookupSession : List (String × GameSession) → String → Option GameSession
  | [], _ => none
  | (k, v) :: rest, pc => if pc = k then some v else lookupSession rest pc

/-- Go map delete `delete(sm.sessions, pc)`. -/
def removeSession (l : List (String × GameSession)) (pc : String) :
    List (String × GameSession) :=
  l.filter fun kv => decide (kv.1 ≠ pc)

/-- Go map write `sm.sessions[pc] = gs`. -/
def setSession (l : List (String × GameSession)) (pc : String)
    (gs : GameSession) : List (String × GameSession) :=
  (pc, gs) :: removeSession l pc

/-- `JoinRoomByPasscode` in game_session_manager.go.  `db` is the
`GetDeckByID` oracle (`none` = database error); `g`/`now` model the fresh
time-seeded RNG and clock of player-state construction.  Returns the new
registry and either an error or `(sessionID, isNew)`. -/
def JoinRoomByPasscode (db : String → Option Deck) (repo : DeckRepo)
    (g : RNG) (now : Int) (sm : SessionMgr)
    (passcode playerID playerDeckID : String) :
    SessionMgr × Except String (String × Bool) :=
  if passcode = "" then (sm, .error "passcode required")
  else if passcode.length < 3 ∨ 20 < passcode.length then
    (sm, .error "passcode must be 3..20 characters")
  else
    match lookupSession sm.sessions passcode with
    | none =>
      match db playerDeckID with
      | none => (sm, .error "failed to get player deck")
      | some deck =>
        let ns := NewGameSession passcode playerID (some deck) repo g now
        ({ sessions := setSession sm.sessions passcode ns },
         .ok (passcode, true))
    | some session =>
      if session.status ≠ "waiting" then
        (sm, .error "room is already playing or finished")
      else if session.player2.isSome then (sm, .error "room is full")
      else if session.player1.any fun p1 => decide (p1.userID = playerID) then
        (sm, .error "cannot join own room")
      else
        match db playerDeckID with
        | none => (sm, .error "failed to get player2 deck")
        | some deck =>
          let updated := SetPlayer2 session playerID (some deck) repo g now
          ({ sessions := setSession sm.sessions passcode updated },
           .ok (passcode, false))

/-- `CheckAndStartGame` in game_session_manager.go: start exactly when
both players are present, both are connected (`conn` is the connection
registry), and the session is still waiting. -/
def CheckAndStartGame (conn : String → Bool) (now : Int) (sm : SessionMgr)
    (passcode : String) : SessionMgr :=
  match lookupSession sm.sessions passcode with
  | none => sm
  | some session =>
    let hasPlayer1 := session.player1.isSome
    let hasPlayer2 := session.player2.isSome
    let player1Connected := session.player1.any fun p => conn p.userID
    let player2Connected := session.player2.any fun p => conn p.userID
    if hasPlayer1 && hasPlayer2 && player1Connected && player2Connected &&
        decide (session.status = "waiting") then
      { sessions := setSession sm.sessions passcode
          { session with status := "playing", startedAt := now } }
    else sm

/-- `EndGameSession` in game_session_manager.go: no-op for an unknown or
already-finished passcode; otherwise mark the session finished (stamping
`endedAt`), persist results and broadcast (external effects), close its
clients, and remove it from the registry — so afterwards the passcode is
gone. -/
def EndGameSession (now : Int) (sm : SessionMgr) (passcode : String) :
    SessionMgr :=
  match lookupSession sm.sessions passcode with
  | none => sm
  | some session =>
    if session.status = "finished" then sm
    else
      let _finished := { session with status := "finished", endedAt := now }
      { sessions := removeSession sm.sessions passcode }

/-- One session's share of the ticker branch of the main loop: end it on
time-up, otherwise auto-fall both live players.  (The 2-second grace
`EndGameSession` after a double game-over runs asynchronously and is a
separate `endSession` operation.) -/
def tickSession (now : Int) (sm : SessionMgr) (passcode : String) :
    SessionMgr :=
  match lookupSession sm.sessions passcode with
  | none => sm
  | some session =>
    if session.status = "playing" then
      if IsTimeUp session now then EndGameSession now sm passcode
      else
        let p1 := session.player1.map fun st =>
          if st.isGameOver then st else (AutoFall st now).1
        let p2 := session.player2.map fun st =>
          if st.isGameOver then st else (AutoFall st now).1
        { sessions := setSession sm.sessions passcode
            { session with player1 := p1, player2 := p2 } }
    else sm

/-- The ticker branch of `Run`: snapshot the playing sessions, then
process each. -/
def Tick (now : Int) (sm : SessionMgr) : SessionMgr :=
  let actives :=
    (sm.sessions.filter fun kv => decide (kv.2.status = "playing")).map
      Prod.fst
  actives.foldl (tickSession now) sm

/-- A session-manager operation (the operations of claim C8). -/
inductive MgrOp where
  | join (passcode playerID playerDeckID : String)
      (db : String → Option Deck) (repo : DeckRepo) (g : RNG) (now : Int)
  | checkStart (passcode : String) (conn : String → Bool) (now : Int)
  | endSession (passcode : String) (now : Int)
  | tick (now : Int)

/-- Apply one manager operation. -/
def applyMgrOp (op : MgrOp) (sm : SessionMgr) : SessionMgr :=
  match op with
  | .join pc pid did db repo g now =>
    (JoinRoomByPasscode db repo g now sm pc pid did).1
  | .checkStart pc conn now => CheckAndStartGame conn now sm pc
  | .endSession pc now => EndGameSession now sm pc
  | .tick now => Tick now sm

/-- Rank of a session status along `waiting → playing → finished`. -/
def statusRank (st : String) : Nat :=
  if st = "waiting" then 0
  else if st = "playing" then 1
  else if st = "finished" then 2
  else 0

/-! ## Witness fixtures -/

/-- An empty session registry (fixture). -/
def emptyMgr : SessionMgr := ⟨[]⟩

/-- A deck-database oracle that always returns one deck (fixture). -/
def db0 : String → Option Deck := fun _ => some ⟨"deck1", "alice"⟩

/-- A deck-placement oracle that always errors, forcing the random-score
fallback (fixture). -/
def repo0 : DeckRepo := fun _ => none

/-- A baseline player state over an empty board (fixture for concrete
instances; the queue holds a full bag so no refill logic runs). -/
def basePS : PlayerGameState :=
  { userID := "p1", board := NewBoard, currentPiece := none,
    nextPiece := none, heldPiece := none, score := 0, linesCleared := 0,
    level := 1, isGameOver := false, deck := none,
    pieceQueue := [.I, .O, .T, .S, .Z, .J, .L], randGenerator := gCtr,
    lastFallTime := 5, contributionScores := fun _ => none,
    currentPieceScores := fun _ => none, deckPlacements := [],
    consecutiveClears := 0, backToBack := false, hasUsedHold := false }

/-- A waiting two-player session (fixture). -/
def sessW : GameSession :=
  { id := "w", player1 := some basePS, player2 := some basePS,
    status := "waiting", startedAt := 0, endedAt := 0,
    timeLimit := GameTimeLimit }

/-- A registry holding just `sessW` (fixture). -/
def mgrW : SessionMgr := ⟨[("w", sessW)]⟩

/-- An O piece resting on the floor: its lowest blocks sit in row 19, so
descending one more row collides (fixture). -/
def pOFloor : Piece :=
  { type := .O, x := 4, y := 18, rotation := 0, scoreData := [] }

/-- The state holding `pOFloor` (fixture for the soft-drop counterexample). -/
def sFloor : PlayerGameState :=
  { basePS with currentPiece := some pOFloor,
                nextPiece := some { type := .T, x := 4, y := 1, rotation := 0,
                                    scoreData := [] } }

/-- An O piece on the floor whose payload carries score 0 for its
`(0,0)` block (fixture for the projection counterexample). -/
def pZero : Piece :=
  { type := .O, x := 4, y := 18, rotation := 0, scoreData := [((0, 0, 0), 0)] }

/-- A state whose per-cell map holds 42 at `(18, 4)` and holds `pZero`
(fixture). -/
def sC3 : PlayerGameState :=
  { basePS with currentPiece := some pZero,
                contributionScores := fun k => if k = (18, 4) then some 42 else none }

/-- An O piece on the floor whose payload carries score 77 for its
`(0,0)` block (fixture for the projection witness). -/
def pPos : Piece :=
  { type := .O, x := 4, y := 18, rotation := 0, scoreData := [((0, 0, 0), 77)] }

/-- An O piece high up with free cells below (fixture). -/
def pOFree : Piece :=
  { type := .O, x := 4, y := 5, rotation := 0, scoreData := [] }

/-- The state holding `pOFree` (fixture for the soft-drop witness). -/
def sFree : PlayerGameState :=
  { basePS with currentPiece := some pOFree,
                nextPiece := some { type := .T, x := 4, y := 1, rotation := 0,
                                    scoreData := [] } }

/-- A fully occupied row (witness fixture). -/
def rowFullW : List BlockType := List.replicate 10 BlockType.BlockGarbage

/-- A row full except for a gap in column 0 (witness fixture). -/
def rowGapW : List BlockType :=
  BlockType.BlockEmpty :: List.replicate 9 BlockType.BlockGarbage

/-- A 20×10 board: 18 empty rows, then `rowGapW`, then `rowFullW`
(witness fixture). -/
def boardW : Board := List.replicate 18 emptyRow ++ [rowGapW, rowFullW]

/-- A score map carrying 7 at `(19, 0)` and nothing elsewhere (witness
fixture). -/
def mapW : ScoreMap := fun k => if k = (19, 0) then some 7 else none

/-! ## Properties of `ClearLines` (claim C1) -/

/-- A left fold adding `f x` at each step is the sum of the mapped list. -/
theorem foldl_add_eq_sum (f : Nat → Int) (l : List Nat) (a : Int) :
    l.foldl (fun acc x => acc + f x) a = a + (l.map f).sum := by
  induction l generalizing a with
  | nil => simp
  | cons x xs ih => simp [ih]; ring

/-- `rowScore` is the sum, over the ten columns, of the per-cell scores
with fallback 10. -/
theorem rowScore_eq_sum (m : ScoreMap) (y : Nat) :
    rowScore m y =
      ((List.range BoardWidth).map fun x => ((m (y, x)).getD 10)).sum := by
  simpa using foldl_add_eq_sum (fun x => (m (y, x)).getD 10) (List.range BoardWidth) 0

/-- Closed form of the `ClearLines` scan, for an arbitrary starting
accumulator. -/
theorem clearScan_foldl (m : ScoreMap) (l : List (Nat × List BlockType))
    (acc : ClearAcc) :
    l.foldl
      (fun acc yrow =>
        if isLineFull yrow.2 then
          { acc with
            cleared := acc.cleared + 1
            points := acc.points + rowScore m yrow.1 }
        else { acc with kept := acc.kept ++ [yrow.2] })
      acc =
      ⟨acc.cleared + (l.filter fun p => isLineFull p.2).length,
       acc.points + ((l.filter fun p => isLineFull p.2).map fun p => rowScore m p.1).sum,
       acc.kept ++ (l.filter fun p => !isLineFull p.2).map Prod.snd⟩ := by
  induction l generalizing acc with
  | nil => simp
  | cons hd tl ih =>
    by_cases h : isLineFull hd.2
    · simp [List.filter_cons, h, ih]
      constructor
      · omega
      · ring
    · simp [List.filter_cons, h, ih]

/-- The scan of `ClearLines` over the reversed enumeration, in closed
form. -/
theorem clearScan_spec (m : ScoreMap) (l : List (Nat × List BlockType)) :
    clearScan m l =
      ⟨(l.filter fun p => isLineFull p.2).length,
       ((l.filter fun p => isLineFull p.2).map fun p => rowScore m p.1).sum,
       (l.filter fun p => !isLineFull p.2).map Prod.snd⟩ := by
  unfold clearScan
  simpa using clearScan_foldl m l ⟨0, 0, []⟩

/-- Filtering an enumeration on the entry and projecting the entry gives
the plain filter. -/
theorem filter_enumFrom_map_snd (P : List BlockType → Bool) (b : Board) :
    ∀ n, ((List.enumFrom n b).filter fun p => P p.2).map Prod.snd = b.filter P := by
  induction b with
  | nil => intro n; simp
  | cons r rs ih =>
    intro n
    by_cases h : P r <;> simp [List.enumFrom_cons, List.filter_cons, h, ih]

/-- **C1.** For every well-formed board and every per-cell score map,
`ClearLines` returns `(board', linesCleared, pointsAwarded)` where
`linesCleared` is the number of full rows (all ten cells non-empty),
`pointsAwarded` is the sum over the full rows of the per-cell scores of
their ten columns (with fallback 10 for coordinates absent from the map),
and `board'` is exactly the non-full rows packed to the bottom in their
original relative order, with empty rows above them. -/
theorem clearLines_spec (b : Board) (m : ScoreMap)
    (_hb : b.length = BoardHeight)
    (_hrow : ∀ row ∈ b, row.length = BoardWidth) :
    (ClearLines b m).2.1 = (b.filter isLineFull).length ∧
    (ClearLines b m).2.2 =
      ((b.enum.filter fun p => isLineFull p.2).map
        fun p => ((List.range BoardWidth).map fun x => ((m (p.1, x)).getD 10)).sum).sum ∧
    (ClearLines b m).1 =
      List.replicate (BoardHeight - (b.filter fun row => !isLineFull row).length)
          emptyRow
        ++ b.filter fun row => !isLineFull row := by
  have hscan := clearScan_spec m b.enum.reverse
  have hfull :
      ((b.enum.filter fun p => isLineFull p.2).map Prod.snd) = b.filter isLineFull :=
    filter_enumFrom_map_snd isLineFull b 0
  have hkept :
      ((b.enum.filter fun p => !isLineFull p.2).map Prod.snd) =
        b.filter fun row => !isLineFull row :=
    filter_enumFrom_map_snd (fun row => !isLineFull row) b 0
  refine ⟨?_, ?_, ?_⟩
  · show (clearScan m b.enum.reverse).cleared = _
    rw [hscan]
    show (List.filter _ b.enum.reverse).length = _
    rw [List.filter_reverse, List.length_reverse, ← hfull, List.length_map]
  · show (clearScan m b.enum.reverse).points = _
    rw [hscan]
    show ((List.filter _ b.enum.reverse).map _).sum = _
    rw [List.filter_reverse, List.map_reverse, List.sum_reverse]
    congr 1
    apply List.map_congr_left
    intro p _
    exact rowScore_eq_sum m p.1
  · show (List.replicate (BoardHeight - (clearScan m b.enum.reverse).kept.length)
        emptyRow ++ (clearScan m b.enum.reverse).kept.reverse) = _
    rw [hscan]
    show List.replicate (BoardHeight - (List.map _ (List.filter _ b.enum.reverse)).length)
        emptyRow ++ (List.map _ (List.filter _ b.enum.reverse)).reverse = _
    rw [List.filter_reverse, List.map_reverse, List.reverse_reverse,
      List.length_reverse, hkept]

/-- Witness for `clearLines_spec`: on `boardW` with `mapW` exactly the
bottom row clears, paying `7 + 9·10 = 97`, and the gap row drops to the
bottom. -/
theorem clearLines_spec_witness :
    (boardW.length = BoardHeight ∧ ∀ row ∈ boardW, row.length = BoardWidth) ∧
    (ClearLines boardW mapW).2.1 = 1 ∧
    (ClearLines boardW mapW).2.2 = 97 ∧
    (ClearLines boardW mapW).1 = List.replicate 19 emptyRow ++ [rowGapW] := by
  have h := clearLines_spec boardW mapW (by decide) (by decide)
  refine ⟨⟨by decide, by decide⟩, ?_, ?_, ?_⟩
  · rw [h.1]; decide
  · rw [h.2.1]; decide
  · rw [h.2.2]; decide

/-! ## The 7-bag generator: permutation blocks and adjacent-duplicate freedom (claim C4) -/

theorem listSwap_perm {α : Type} [DecidableEq α] (l : List α) (i j : Nat) :
    (listSwap l i j).Perm l := by
  unfold listSwap
  cases hi : l[i]? with
  | none => exact List.Perm.refl l
  | some vi =>
    cases hj : l[j]? with
    | none => exact List.Perm.refl l
    | some vj =>
      rw [List.getElem?_eq_some_iff] at hi hj
      obtain ⟨h1, hvi⟩ := hi
      obtain ⟨h2, hvj⟩ := hj
      subst hvi
      subst hvj
      rw [List.perm_iff_count]
      intro b
      have h2a : j < (l.set i l[j]).length := by simpa using h2
      rw [List.count_set _ _ _ _ h2a, List.count_set _ _ _ _ h1]
      have hget : (l.set i l[j])[j] = if i = j then l[j] else l[j] :=
        List.getElem_set h2a
      have hcnt1 : l[i] = b → 1 ≤ l.count b := fun hb =>
        List.count_pos_iff.mpr (hb ▸ List.getElem_mem h1)
      have hcnt2 : l[j] = b → 1 ≤ l.count b := fun hb =>
        List.count_pos_iff.mpr (hb ▸ List.getElem_mem h2)
      simp only [hget, ite_self, beq_iff_eq]
      by_cases e1 : l[i] = b <;> by_cases e2 : l[j] = b
      · have c1 := hcnt1 e1
        simp only [e1, e2, if_pos] at *
        omega
      · have c1 := hcnt1 e1
        simp only [e1, e2, if_pos, if_neg, not_false_iff] at *
        omega
      · have c2 := hcnt2 e2
        simp only [e1, e2, if_pos, if_neg, not_false_iff] at *
        omega
      · simp only [e1, e2, if_neg, not_false_iff] at *
        omega

theorem shuffleSteps_perm {α : Type} [DecidableEq α] :
    ∀ (n : Nat) (l : List α) (g : RNG), ((shuffleSteps l g n).1).Perm l := by
  intro n
  induction n with
  | zero => intro l g; exact List.Perm.refl l
  | succ k ih =>
    intro l g
    unfold shuffleSteps
    exact (ih _ _).trans (listSwap_perm l (k + 1) _)

theorem shuffle_perm {α : Type} [DecidableEq α] (l : List α) (g : RNG) :
    ((shuffle l g).1).Perm l :=
  shuffleSteps_perm _ l g

theorem makeBag_perm (lastPiece : Option PieceType) (g : RNG) :
    ((makeBag lastPiece g).1).Perm canonicalBag := by
  unfold makeBag
  cases lastPiece with
  | none => exact shuffle_perm canonicalBag g
  | some lp =>
    by_cases h : 1 < (shuffle canonicalBag g).1.length ∧
        (shuffle canonicalBag g).1[0]? = some lp
    · simp only [h, and_self, if_pos]
      exact (listSwap_perm _ 0 _).trans (shuffle_perm canonicalBag g)
    · simp only [if_neg h]
      exact shuffle_perm canonicalBag g

theorem makeBag_length (lastPiece : Option PieceType) (g : RNG) :
    ((makeBag lastPiece g).1).length = 7 :=
  (makeBag_perm lastPiece g).length_eq.trans rfl

theorem makeBag_nodup (lastPiece : Option PieceType) (g : RNG) :
    ((makeBag lastPiece g).1).Nodup :=
  (List.Nodup.perm (by decide) (makeBag_perm lastPiece g).symm : _)

theorem swapFix_head_ne (bag : List PieceType) (lp : PieceType)
    (hlen : bag.length = 7) (hnd : bag.Nodup) (h0 : bag[0]? = some lp)
    (k : Nat) (hk : k < 6) : (listSwap bag 0 (k + 1))[0]? ≠ some lp := by
  have hb0 : (0 : Nat) < bag.length := by omega
  have hb1 : k + 1 < bag.length := by omega
  have hsw : listSwap bag 0 (k + 1) =
      (bag.set 0 bag[k + 1]).set (k + 1) bag[0] := by
    unfold listSwap
    rw [List.getElem?_eq_getElem hb0, List.getElem?_eq_getElem hb1]
  rw [hsw]
  rw [List.getElem?_set]
  have hne : k + 1 ≠ 0 := by omega
  rw [if_neg hne]
  rw [List.getElem?_set]
  rw [if_pos rfl, if_pos (by simpa using hb0)]
  intro hcontra
  have heq1 : bag[k + 1] = lp := Option.some.inj hcontra
  have heq0 : bag[0] = lp := by
    rw [List.getElem?_eq_getElem hb0] at h0
    exact Option.some.inj h0
  have := (List.Nodup.getElem_inj_iff hnd).mp (heq1.trans heq0.symm)
  omega

theorem makeBag_head_ne (lp : PieceType) (g : RNG) :
    ((makeBag (some lp) g).1)[0]? ≠ some lp := by
  unfold makeBag
  by_cases h : 1 < (shuffle canonicalBag g).1.length ∧
      (shuffle canonicalBag g).1[0]? = some lp
  · simp only [h, and_self, if_pos]
    have hlen : (shuffle canonicalBag g).1.length = 7 :=
      (shuffle_perm canonicalBag g).length_eq.trans rfl
    have hnd : (shuffle canonicalBag g).1.Nodup :=
      List.Nodup.perm (by decide) (shuffle_perm canonicalBag g).symm
    apply swapFix_head_ne _ _ hlen hnd h.2
    show ((shuffle canonicalBag g).2.stream (shuffle canonicalBag g).2.pos) %
        ((shuffle canonicalBag g).1.length - 1) < 6
    rw [hlen]
    exact Nat.mod_lt _ (by omega)
  · simp only [if_neg h]
    intro hcontra
    apply h
    constructor
    · rw [(shuffle_perm canonicalBag g).length_eq]
      decide
    · exact hcontra

theorem bagSeq_length (g : RNG) (k : Nat) : ((bagSeq g k).1).length = 7 := by
  cases k with
  | zero => exact makeBag_length none g
  | succ k => exact makeBag_length _ _

theorem tapeTo_length (g : RNG) : ∀ k, (tapeTo g k).length = 7 * (k + 1) := by
  intro k
  induction k with
  | zero => simpa using bagSeq_length g 0
  | succ k ih =>
    show (tapeTo g k ++ (bagSeq g (k + 1)).1).length = _
    rw [List.length_append, ih, bagSeq_length]
    ring

theorem tapeTo_getD (g : RNG) :
    ∀ (k i : Nat), i < 7 * (k + 1) → (tapeTo g k).getD i .I = outAt g i := by
  intro k
  induction k with
  | zero =>
    intro i hi
    have h7 : i / 7 = 0 := Nat.div_eq_of_lt (by omega)
    have hm : i % 7 = i := Nat.mod_eq_of_lt (by omega)
    show ((bagSeq g 0).1).getD i .I = _
    rw [outAt, h7, hm]
  | succ k ih =>
    intro i hi
    show (tapeTo g k ++ (bagSeq g (k + 1)).1).getD i .I = _
    by_cases hlt : i < 7 * (k + 1)
    · rw [List.getD_append _ _ _ _ (by rw [tapeTo_length]; omega)]
      exact ih i hlt
    · rw [List.getD_append_right _ _ _ _ (by rw [tapeTo_length]; omega)]
      rw [tapeTo_length]
      have hdiv : i / 7 = k + 1 := by omega
      have hmod : i % 7 = i - 7 * (k + 1) := by omega
      rw [outAt, hdiv, hmod]

theorem tapeTo_getLast? (g : RNG) :
    ∀ k, (tapeTo g k).getLast? = ((bagSeq g k).1).getLast? := by
  intro k
  cases k with
  | zero => rfl
  | succ k =>
    show (tapeTo g k ++ (bagSeq g (k + 1)).1).getLast? = _
    rw [List.getLast?_append]
    have : ((bagSeq g (k + 1)).1).getLast?.isSome := by
      rw [List.getLast?_isSome]
      intro hnil
      have := bagSeq_length g (k + 1)
      rw [hnil] at this
      simp at this
    cases hl : ((bagSeq g (k + 1)).1).getLast? with
    | none => rw [hl] at this; simp at this
    | some v => simp

theorem getLast?_drop_of_lt {α : Type} (l : List α) (m : Nat)
    (h : m < l.length) : (l.drop m).getLast? = l.getLast? := by
  rw [List.getLast?_eq_getElem?, List.getLast?_eq_getElem?,
    List.length_drop, List.getElem?_drop]
  congr 1
  omega

theorem popSeq_tape (g : RNG) :
    ∀ (n k m : Nat), m ≤ 7 * k + 1 →
    popSeq ((tapeTo g k).drop m) ((bagSeq g k).2) n =
      (List.range n).map (fun j => outAt g (m + j)) := by
  intro n
  induction n with
  | zero => intro k m _; simp [popSeq]
  | succ n ih =>
    intro k m hm
    have hqlen : ((tapeTo g k).drop m).length = 7 * (k + 1) - m := by
      rw [List.length_drop, tapeTo_length]
    rw [popSeq]
    by_cases hq : ((tapeTo g k).drop m).length < 7
    · -- refill: only possible at m = 7k + 1
      have hm' : m = 7 * k + 1 := by omega
      have hmlt : m < (tapeTo g k).length := by rw [tapeTo_length]; omega
      have hlast : ((tapeTo g k).drop m).getLast? = ((bagSeq g k).1).getLast? := by
        rw [getLast?_drop_of_lt _ _ hmlt, tapeTo_getLast?]
      have hgen : generatePieceQueue ((tapeTo g k).drop m) ((bagSeq g k).2) =
          ((tapeTo g k ++ (bagSeq g (k + 1)).1).drop m, (bagSeq g (k + 1)).2) := by
        rw [generatePieceQueue, hlast]
        show ((tapeTo g k).drop m ++ (bagSeq g (k + 1)).1, (bagSeq g (k + 1)).2) = _
        rw [List.drop_append_of_le_length (by rw [tapeTo_length]; omega)]
      rw [popPieceType]
      simp only [hq, if_pos, hgen]
      have htape : tapeTo g k ++ (bagSeq g (k + 1)).1 = tapeTo g (k + 1) := rfl
      rw [htape]
      have hhead : ((tapeTo g (k + 1)).drop m).headD PieceType.I = outAt g m := by
        rw [List.headD_eq_head?, List.head?_drop, ← List.getD_eq_getElem?_getD]
        exact tapeTo_getD g (k + 1) m (by omega)
      have htail : ((tapeTo g (k + 1)).drop m).tail = (tapeTo g (k + 1)).drop (m + 1) :=
        List.tail_drop _ _
      rw [hhead, htail, ih (k + 1) (m + 1) (by omega)]
      rw [List.range_succ_eq_map, List.map_cons, List.map_map]
      congr 1
      apply List.map_congr_left
      intro j _
      show outAt g (m + 1 + j) = outAt g (m + (j + 1))
      congr 1
      omega
    · -- queue still long enough: no refill
      rw [popPieceType]
      simp only [hq, if_neg, not_false_iff, ite_false]
      have hhead : ((tapeTo g k).drop m).headD PieceType.I = outAt g m := by
        rw [List.headD_eq_head?, List.head?_drop, ← List.getD_eq_getElem?_getD]
        exact tapeTo_getD g k m (by omega)
      have htail : ((tapeTo g k).drop m).tail = (tapeTo g k).drop (m + 1) :=
        List.tail_drop _ _
      rw [hhead, htail, ih k (m + 1) (by omega)]
      rw [List.range_succ_eq_map, List.map_cons, List.map_map]
      congr 1
      apply List.map_congr_left
      intro j _
      show outAt g (m + 1 + j) = outAt g (m + (j + 1))
      congr 1
      omega

/-- The queue state right after player-state construction:
`generatePieceQueue` applied to the empty queue. -/
theorem popSeq_start (g : RNG) (n : Nat) :
    popSeq (generatePieceQueue [] g).1 (generatePieceQueue [] g).2 n =
      (List.range n).map (outAt g) := by
  have h0 : generatePieceQueue [] g = (tapeTo g 0, (bagSeq g 0).2) := by
    rw [generatePieceQueue]
    rfl
  rw [h0]
  have := popSeq_tape g n 0 0 (by omega)
  simpa using this

theorem bagSeq_perm (g : RNG) (k : Nat) :
    ((bagSeq g k).1).Perm canonicalBag := by
  cases k with
  | zero => exact makeBag_perm none g
  | succ k => exact makeBag_perm _ _

theorem bagSeq_nodup (g : RNG) (k : Nat) : ((bagSeq g k).1).Nodup :=
  List.Nodup.perm (by decide) (bagSeq_perm g k).symm

theorem outAt_adjacent_ne (g : RNG) (i : Nat) : outAt g i ≠ outAt g (i + 1) := by
  have hr : i % 7 < 7 := Nat.mod_lt _ (by omega)
  by_cases h6 : i % 7 = 6
  · -- bag boundary
    have hdiv : (i + 1) / 7 = i / 7 + 1 := by omega
    have hmod : (i + 1) % 7 = 0 := by omega
    rw [outAt, outAt, hdiv, hmod, h6]
    have hlen : ((bagSeq g (i / 7)).1).length = 7 := bagSeq_length g _
    have hlen' : ((bagSeq g (i / 7 + 1)).1).length = 7 := bagSeq_length g _
    rw [List.getD_eq_getElem _ _ (by omega), List.getD_eq_getElem _ _ (by omega)]
    have hlast : ((bagSeq g (i / 7)).1).getLast? =
        some ((bagSeq g (i / 7)).1)[6] := by
      rw [List.getLast?_eq_getElem?]
      simp only [hlen]
      show ((bagSeq g (i / 7)).1)[6]? = _
      rw [List.getElem?_eq_getElem (by omega)]
    have hnext : (bagSeq g (i / 7 + 1)).1 =
        (makeBag ((bagSeq g (i / 7)).1).getLast? (bagSeq g (i / 7)).2).1 := rfl
    have hne := makeBag_head_ne ((bagSeq g (i / 7)).1)[6]
      (bagSeq g (i / 7)).2
    rw [← hlast, ← hnext] at hne
    rw [List.getElem?_eq_getElem (by omega)] at hne
    intro hcontra
    exact hne (by rw [hlast, hcontra])
  · -- inside one bag
    have hdiv : (i + 1) / 7 = i / 7 := by omega
    have hmod : (i + 1) % 7 = i % 7 + 1 := by omega
    rw [outAt, outAt, hdiv, hmod]
    have hlen : ((bagSeq g (i / 7)).1).length = 7 := bagSeq_length g _
    rw [List.getD_eq_getElem _ _ (by omega), List.getD_eq_getElem _ _ (by omega)]
    intro hcontra
    have := (List.Nodup.getElem_inj_iff (bagSeq_nodup g (i / 7))).mp hcontra
    omega

theorem popSeq_block_eq (g : RNG) (n k : Nat) (h : 7 * (k + 1) ≤ n) :
    ((popSeq (generatePieceQueue [] g).1 (generatePieceQueue [] g).2 n).drop
        (7 * k)).take 7 = (bagSeq g k).1 := by
  rw [popSeq_start]
  apply List.ext_getElem
  · simp only [List.length_take, List.length_drop, List.length_map,
      List.length_range, bagSeq_length]
    omega
  · intro i h1 h2
    rw [List.getElem_take, List.getElem_drop, List.getElem_map,
      List.getElem_range]
    have hi7 : i < 7 := by
      simp only [List.length_take, List.length_drop, List.length_map,
        List.length_range] at h1
      omega
    have hdiv : (7 * k + i) / 7 = k := by omega
    have hmod : (7 * k + i) % 7 = i := by omega
    rw [outAt, hdiv, hmod, List.getD_eq_getElem _ _ (by rw [bagSeq_length]; omega)]

/-- **C4 (amended).** For every RNG stream (i.e. every seed) and every
number of draws `n` from the freshly initialised piece queue, each
*aligned* block of seven consecutive outputs (`outputs[7k .. 7k+7)`) is a
permutation of the seven piece types, and no two adjacent outputs in the
stream are equal, even across bag boundaries.  (The original claim's
"every window of 7 consecutive outputs", i.e. windows at arbitrary
offsets, fails — see the counterexample.) -/
theorem bag_stream_spec (g : RNG) (n : Nat) :
    (∀ k, 7 * (k + 1) ≤ n →
      (((popSeq (generatePieceQueue [] g).1 (generatePieceQueue [] g).2 n).drop
          (7 * k)).take 7).Perm canonicalBag) ∧
    ∀ i, i + 1 < n →
      (popSeq (generatePieceQueue [] g).1 (generatePieceQueue [] g).2 n).getD i .I ≠
        (popSeq (generatePieceQueue [] g).1 (generatePieceQueue [] g).2 n).getD
          (i + 1) .I := by
  constructor
  · intro k hk
    rw [popSeq_block_eq g n k hk]
    exact bagSeq_perm g k
  · intro i hi
    rw [popSeq_start]
    rw [List.getD_eq_getElem _ _ (by simp only [List.length_map, List.length_range]; omega),
      List.getD_eq_getElem _ _ (by simp only [List.length_map, List.length_range]; omega)]
    rw [List.getElem_map, List.getElem_map, List.getElem_range, List.getElem_range]
    exact outAt_adjacent_ne g i

/-- **C4, counterexample.** With the concrete RNG stream `gCtr`, the first
14 outputs are `[O,T,S,Z,J,L,I, O,I,T,S,Z,J,L]`; the window of 7
consecutive outputs starting at offset 2 contains `I` twice, so it is not
a permutation of the seven types, refuting the claim that *every* window
of 7 consecutive outputs is a permutation. -/
theorem bag_stream_window_counterexample :
    popSeq (generatePieceQueue [] gCtr).1 (generatePieceQueue [] gCtr).2 14 =
      [.O, .T, .S, .Z, .J, .L, .I, .O, .I, .T, .S, .Z, .J, .L] ∧
    ¬ ((((popSeq (generatePieceQueue [] gCtr).1 (generatePieceQueue [] gCtr).2
        14).drop 2).take 7)).Perm canonicalBag :=
  ⟨by decide, by decide⟩

/-- Witness for `bag_stream_spec` at the concrete stream `gCtr`, `n = 14`,
block `k = 1` and adjacent pair `i = 0`. -/
theorem bag_stream_spec_witness :
    (7 * (1 + 1) ≤ 14 ∧
      (((popSeq (generatePieceQueue [] gCtr).1 (generatePieceQueue [] gCtr).2
          14).drop (7 * 1)).take 7).Perm canonicalBag) ∧
    (0 + 1 < 14 ∧
      (popSeq (generatePieceQueue [] gCtr).1 (generatePieceQueue [] gCtr).2
          14).getD 0 .I ≠
        (popSeq (generatePieceQueue [] gCtr).1 (generatePieceQueue [] gCtr).2
          14).getD (0 + 1) .I) :=
  ⟨⟨by decide, (bag_stream_spec gCtr 14).1 1 (by decide)⟩,
   ⟨by decide, (bag_stream_spec gCtr 14).2 0 (by decide)⟩⟩

/-! ## `CalculateScore` (claim C5) -/

theorem specPreBonus_dvd (cl level cc : Int) :
    (50 : Int) ∣ specPreBonus cl level cc := by
  unfold specPreBonus specBaseScore
  apply dvd_add
  · split_ifs <;> exact Dvd.dvd.mul_right (by norm_num) level
  · split_ifs
    · exact ⟨(cc - 1) * level, by ring⟩
    · exact ⟨0, by ring⟩

theorem specPreBonus_even (cl level cc : Int) :
    (2 : Int) ∣ specPreBonus cl level cc :=
  dvd_trans (by norm_num) (specPreBonus_dvd cl level cc)

theorem tdiv_three_halves_exact (pre : Int) (h : (2 : Int) ∣ pre) :
    2 * Int.tdiv (pre * 3) 2 = 3 * pre := by
  have h2 : (2 : Int) ∣ pre * 3 := Dvd.dvd.mul_right h 3
  have := Int.mul_tdiv_cancel' h2
  linarith

/-- **C5.** For every `clearedLines ∈ {1,2,3,4}`, `level ≥ 1`,
`consecutiveClears ≥ 0` and back-to-back flag, `CalculateScore` returns
exactly the claim's formula: the pre-multiplier
`base(cl)·level + (if cc > 1 then 50·(cc−1)·level else 0)`, multiplied by
1.5 when back-to-back; the pre-multiplier is always a multiple of 50, so
the 1.5 multiplication is exact (`2·result = 3·pre`). -/
theorem calculateScore_spec (cl level cc : Int) (b2b : Bool)
    (hcl : cl = 1 ∨ cl = 2 ∨ cl = 3 ∨ cl = 4)
    (_hlev : 1 ≤ level) (_hcc : 0 ≤ cc) :
    CalculateScore cl level cc b2b =
      (if b2b then Int.tdiv (specPreBonus cl level cc * 3) 2
       else specPreBonus cl level cc) ∧
    (50 : Int) ∣ specPreBonus cl level cc ∧
    (b2b = true →
      2 * CalculateScore cl level cc b2b = 3 * specPreBonus cl level cc) := by
  have hmain : CalculateScore cl level cc b2b =
      (if b2b then Int.tdiv (specPreBonus cl level cc * 3) 2
       else specPreBonus cl level cc) := by
    unfold CalculateScore specPreBonus specBaseScore
    rcases hcl with rfl | rfl | rfl | rfl <;> cases b2b <;>
      by_cases hc : 1 < cc <;> simp [hc]
  refine ⟨hmain, specPreBonus_dvd cl level cc, ?_⟩
  intro hb
  subst hb
  rw [hmain]
  simp only [ite_true, if_pos]
  exact tdiv_three_halves_exact _ (specPreBonus_even cl level cc)

/-- Witness for `calculateScore_spec` at `clearedLines = 2`, `level = 3`,
`consecutiveClears = 4`, back-to-back set. -/
theorem calculateScore_spec_witness :
    CalculateScore 2 3 4 true =
      (if true then Int.tdiv (specPreBonus 2 3 4 * 3) 2
       else specPreBonus 2 3 4) ∧
    (50 : Int) ∣ specPreBonus 2 3 4 ∧
    (true = true → 2 * CalculateScore 2 3 4 true = 3 * specPreBonus 2 3 4) :=
  calculateScore_spec 2 3 4 true (by norm_num) (by norm_num) (by norm_num)


/-! ## Frame lemmas for the lock sequence (claims C10, C2, C9) -/

/-- `GetNextPieceFromQueue` changes only the queue and the RNG. -/
theorem getNext_frame (s : PlayerGameState) :
    ((GetNextPieceFromQueue s).2).contributionScores = s.contributionScores ∧
    ((GetNextPieceFromQueue s).2).board = s.board ∧
    ((GetNextPieceFromQueue s).2).currentPiece = s.currentPiece ∧
    ((GetNextPieceFromQueue s).2).isGameOver = s.isGameOver := by
  cases h : getPieceScoreFromDeck s
      (popPieceType s.pieceQueue s.randGenerator).1 <;>
    simp [GetNextPieceFromQueue, h]

/-- `updateCurrentPieceScores` changes only the broadcast map. -/
theorem updateCPS_frame (s : PlayerGameState) :
    (updateCurrentPieceScores s).board = s.board ∧
    (updateCurrentPieceScores s).currentPiece = s.currentPiece ∧
    (updateCurrentPieceScores s).nextPiece = s.nextPiece ∧
    (updateCurrentPieceScores s).heldPiece = s.heldPiece ∧
    (updateCurrentPieceScores s).score = s.score ∧
    (updateCurrentPieceScores s).lastFallTime = s.lastFallTime ∧
    (updateCurrentPieceScores s).isGameOver = s.isGameOver ∧
    (updateCurrentPieceScores s).contributionScores = s.contributionScores := by
  cases h : s.currentPiece <;> simp [updateCurrentPieceScores, h]

/-- `GetNextPieceFromQueue` keeps the per-cell contribution scores. -/
theorem getNext_contributionScores (s : PlayerGameState) :
    ((GetNextPieceFromQueue s).2).contributionScores = s.contributionScores :=
  (getNext_frame s).1

/-- `updateCurrentPieceScores` keeps the per-cell contribution scores. -/
theorem updateCPS_contributionScores (s : PlayerGameState) :
    (updateCurrentPieceScores s).contributionScores = s.contributionScores :=
  (updateCPS_frame s).2.2.2.2.2.2.2

/-- `SpawnNewPiece` never touches the per-cell contribution scores. -/
theorem spawnNewPiece_contributionScores (s : PlayerGameState) :
    (SpawnNewPiece s).contributionScores = s.contributionScores := by
  cases h : s.currentPiece with
  | none =>
    simp [SpawnNewPiece, h, getNext_contributionScores,
      updateCPS_contributionScores, apply_ite PlayerGameState.contributionScores]
  | some p =>
    cases hn : s.nextPiece <;>
      simp [SpawnNewPiece, h, hn, getNext_contributionScores,
        updateCPS_contributionScores,
        apply_ite PlayerGameState.contributionScores]

/-- **C10.** `ClearLines` (as called from the lock sequence) never mutates
the per-cell score map: after `handlePieceLock` the map is exactly the one
produced by the payload projection, with no entry added, removed, or
shifted by the row removals — cleared rows keep their previous scores in
the map.  (In board.go, `ClearLines` only reads `contributionScores`.) -/
theorem handlePieceLock_scores_frame (s : PlayerGameState) :
    (handlePieceLock s).contributionScores =
      (updateContributionScoresFromPiece s s.currentPiece).contributionScores := by
  unfold handlePieceLock
  rw [spawnNewPiece_contributionScores]
  dsimp only
  split <;> rfl

/-! ## Soft drop (claim C2) -/

/-- **C2 (amended).** For every non-game-over player state with a current
piece, `soft_drop` descends the piece one row and adds 1 to the score when
the cell below is free — leaving the fall timer untouched — and does
nothing at all (returning `false`) when descending one row would collide:
the piece is *not* locked and the board is unchanged. -/
theorem softDrop_spec (s : PlayerGameState) (p : Piece)
    (hgo : s.isGameOver = false) (hp : s.currentPiece = some p) :
    (HasCollision s.board p 0 1 = false →
      (ApplyPlayerInput s "soft_drop").1.currentPiece =
          some { p with y := p.y + 1 } ∧
      (ApplyPlayerInput s "soft_drop").1.score = s.score + 1 ∧
      (ApplyPlayerInput s "soft_drop").1.board = s.board ∧
      (ApplyPlayerInput s "soft_drop").1.lastFallTime = s.lastFallTime ∧
      (ApplyPlayerInput s "soft_drop").2 = true) ∧
    (HasCollision s.board p 0 1 = true →
      ApplyPlayerInput s "soft_drop" = (s, false)) := by
  constructor
  · intro hcol
    refine ⟨?_, ?_, ?_, ?_, ?_⟩ <;>
      simp [ApplyPlayerInput, hgo, hp, hcol, updateCPS_frame]
  · intro hcol
    simp [ApplyPlayerInput, hgo, hp, hcol]

/-- Witness for `softDrop_spec`: the free-fall branch at `sFree`. -/
theorem softDrop_spec_witness :
    (ApplyPlayerInput sFree "soft_drop").1.currentPiece =
        some { pOFree with y := pOFree.y + 1 } ∧
    (ApplyPlayerInput sFree "soft_drop").1.score = sFree.score + 1 ∧
    (ApplyPlayerInput sFree "soft_drop").1.board = sFree.board ∧
    (ApplyPlayerInput sFree "soft_drop").1.lastFallTime = sFree.lastFallTime ∧
    (ApplyPlayerInput sFree "soft_drop").2 = true :=
  (softDrop_spec sFree pOFree (by decide) (by decide)).1 (by decide)

/-- **C2, counterexample.** `sFloor` is live, holds the O piece `pOFloor`
resting on the floor (descending collides), yet `soft_drop` leaves the
state completely unchanged and returns `false`: the piece is not merged
into the board (merging would change it) and no lock sequence runs —
refuting "when descending one row would collide, soft_drop locks the
piece".  The fall timer (5) is also untouched. -/
theorem softDrop_counterexample :
    sFloor.isGameOver = false ∧
    sFloor.currentPiece = some pOFloor ∧
    HasCollision sFloor.board pOFloor 0 1 = true ∧
    ApplyPlayerInput sFloor "soft_drop" = (sFloor, false) ∧
    MergePiece sFloor.board pOFloor ≠ sFloor.board :=
  ⟨by decide, by decide, by decide, rfl, by decide⟩

/-! ## Score projection at lock time (claim C3) -/

/-- On the board, the landing coordinate determines the block: the key
encoding is injective for in-bounds blocks. -/
theorem projectKey_inj (p : Piece) (blk blk' : Int × Int)
    (hx : 0 ≤ p.x + blk.1) (hy : 0 ≤ p.y + blk.2)
    (hx' : 0 ≤ p.x + blk'.1) (hy' : 0 ≤ p.y + blk'.2)
    (h : ((p.y + blk'.2).toNat, (p.x + blk'.1).toNat) =
      ((p.y + blk.2).toNat, (p.x + blk.1).toNat)) : blk' = blk := by
  obtain ⟨b1, b2⟩ := blk
  obtain ⟨c1, c2⟩ := blk'
  simp only [Prod.mk.injEq] at h ⊢
  omega

/-- One projection step never disturbs the target cell unless it is the
target block's own write. -/
theorem projectScoreStep_keep (p : Piece) (blk : Int × Int) (sc : Int)
    (hx : 0 ≤ p.x + blk.1) (hx2 : p.x + blk.1 < (BoardWidth : Int))
    (hy : 0 ≤ p.y + blk.2) (hy2 : p.y + blk.2 < (BoardHeight : Int))
    (hlook : lookupSD p.scoreData (p.rotation, blk.1, blk.2) = some sc)
    (m : ScoreMap) (blk' : Int × Int)
    (hm : m ((p.y + blk.2).toNat, (p.x + blk.1).toNat) = some sc) :
    (projectScoreStep p m blk') ((p.y + blk.2).toNat, (p.x + blk.1).toNat) =
      some sc := by
  unfold projectScoreStep
  by_cases hin : 0 ≤ p.x + blk'.1 ∧ p.x + blk'.1 < (BoardWidth : Int) ∧
      0 ≤ p.y + blk'.2 ∧ p.y + blk'.2 < (BoardHeight : Int)
  · simp only [hin, if_pos]
    cases hlk : lookupSD p.scoreData (p.rotation, blk'.1, blk'.2) with
    | none => exact hm
    | some sc' =>
      by_cases hpos : 0 < sc'
      · simp only [hpos, if_pos]
        unfold ScoreMap.insert
        by_cases hkey : ((p.y + blk.2).toNat, (p.x + blk.1).toNat) =
            ((p.y + blk'.2).toNat, (p.x + blk'.1).toNat)
        · have hbb : blk' = blk :=
            projectKey_inj p blk blk' hx hy hin.1 hin.2.2.1 hkey.symm
          subst hbb
          rw [hlk] at hlook
          simp [hkey, hlook]
        · simp [hkey, hm]
      · simp only [hpos, if_neg, not_false_iff, ite_false]
        exact hm
  · simp only [hin, if_neg, not_false_iff, ite_false]
    exact hm

/-- After the projection fold, the target block's positive payload is in
the map. -/
theorem projectFold_pos (p : Piece) (blk : Int × Int) (sc : Int)
    (hx : 0 ≤ p.x + blk.1) (hx2 : p.x + blk.1 < (BoardWidth : Int))
    (hy : 0 ≤ p.y + blk.2) (hy2 : p.y + blk.2 < (BoardHeight : Int))
    (hlook : lookupSD p.scoreData (p.rotation, blk.1, blk.2) = some sc)
    (hsc : 0 < sc) :
    ∀ (blks : List (Int × Int)) (m : ScoreMap), blk ∈ blks →
      (blks.foldl (projectScoreStep p) m)
        ((p.y + blk.2).toNat, (p.x + blk.1).toNat) = some sc := by
  have keep : ∀ (blks : List (Int × Int)) (m : ScoreMap),
      m ((p.y + blk.2).toNat, (p.x + blk.1).toNat) = some sc →
      (blks.foldl (projectScoreStep p) m)
        ((p.y + blk.2).toNat, (p.x + blk.1).toNat) = some sc := by
    intro blks
    induction blks with
    | nil => intro m hm; exact hm
    | cons h tl ih =>
      intro m hm
      exact ih _ (projectScoreStep_keep p blk sc hx hx2 hy hy2 hlook m h hm)
  intro blks
  induction blks with
  | nil => intro m hmem; cases hmem
  | cons h tl ih =>
    intro m hmem
    rcases List.mem_cons.mp hmem with heq | htl
    · subst heq
      rw [List.foldl_cons]
      apply keep
      unfold projectScoreStep
      simp only [hx, hx2, hy, hy2, and_self, if_pos, true_and, and_true]
      rw [hlook]
      simp only [hsc, if_pos, ite_true]
      unfold ScoreMap.insert
      simp
    · exact ih _ htl

/-- After the projection fold, a block whose payload entry is absent or
non-positive leaves its cell untouched. -/
theorem projectFold_nonpos (p : Piece) (blk : Int × Int)
    (hx : 0 ≤ p.x + blk.1) (hx2 : p.x + blk.1 < (BoardWidth : Int))
    (hy : 0 ≤ p.y + blk.2) (hy2 : p.y + blk.2 < (BoardHeight : Int))
    (hlook : ∀ sc, lookupSD p.scoreData (p.rotation, blk.1, blk.2) = some sc →
      sc ≤ 0) :
    ∀ (blks : List (Int × Int)) (m : ScoreMap),
      (blks.foldl (projectScoreStep p) m)
        ((p.y + blk.2).toNat, (p.x + blk.1).toNat) =
        m ((p.y + blk.2).toNat, (p.x + blk.1).toNat) := by
  intro blks
  induction blks with
  | nil => intro m; rfl
  | cons h tl ih =>
    intro m
    rw [List.foldl_cons, ih]
    unfold projectScoreStep
    by_cases hin : 0 ≤ p.x + h.1 ∧ p.x + h.1 < (BoardWidth : Int) ∧
        0 ≤ p.y + h.2 ∧ p.y + h.2 < (BoardHeight : Int)
    · simp only [hin, if_pos]
      cases hlk : lookupSD p.scoreData (p.rotation, h.1, h.2) with
      | none => rfl
      | some sc' =>
        by_cases hpos : 0 < sc'
        · simp only [hpos, if_pos, ite_true]
          unfold ScoreMap.insert
          by_cases hkey : ((p.y + blk.2).toNat, (p.x + blk.1).toNat) =
              ((p.y + h.2).toNat, (p.x + h.1).toNat)
          · have hbb : h = blk :=
              projectKey_inj p blk h hx hy hin.1 hin.2.2.1 hkey.symm
            subst hbb
            have := hlook sc' hlk
            omega
          · simp [hkey]
        · simp [hpos]
    · simp [hin]

/-- **C3 (amended).** When a piece locks, each of its blocks with an
in-bounds landing coordinate overwrites the per-cell score map entry at
that coordinate with its payload score **provided** the (non-empty)
payload carries a positive score for `(rotation, dx, dy)`; when the
payload entry is absent or non-positive the entry is left unchanged (and
an empty payload skips the projection entirely). -/
theorem scoreProjection_spec (s : PlayerGameState) (p : Piece)
    (blk : Int × Int) (hmem : blk ∈ p.Blocks)
    (hx : 0 ≤ p.x + blk.1) (hx2 : p.x + blk.1 < (BoardWidth : Int))
    (hy : 0 ≤ p.y + blk.2) (hy2 : p.y + blk.2 < (BoardHeight : Int))
    (hsd : p.scoreData.length ≠ 0) :
    (∀ sc, lookupSD p.scoreData (p.rotation, blk.1, blk.2) = some sc →
      0 < sc →
      (updateContributionScoresFromPiece s (some p)).contributionScores
        ((p.y + blk.2).toNat, (p.x + blk.1).toNat) = some sc) ∧
    ((∀ sc, lookupSD p.scoreData (p.rotation, blk.1, blk.2) = some sc →
        sc ≤ 0) →
      (updateContributionScoresFromPiece s (some p)).contributionScores
        ((p.y + blk.2).toNat, (p.x + blk.1).toNat) =
        s.contributionScores ((p.y + blk.2).toNat, (p.x + blk.1).toNat)) := by
  constructor
  · intro sc hlook hsc
    unfold updateContributionScoresFromPiece
    simp only [hsd, if_neg, not_false_iff, ite_false]
    exact projectFold_pos p blk sc hx hx2 hy hy2 hlook hsc p.Blocks
      s.contributionScores hmem
  · intro hlook
    unfold updateContributionScoresFromPiece
    simp only [hsd, if_neg, not_false_iff, ite_false]
    exact projectFold_nonpos p blk hx hx2 hy hy2 hlook p.Blocks
      s.contributionScores

/-- Witness for `scoreProjection_spec`: the positive branch at `pPos`
(payload 77 for the `(0,0)` block, landing at `(18,4)`). -/
theorem scoreProjection_spec_witness :
    (updateContributionScoresFromPiece sC3 (some pPos)).contributionScores
      ((pPos.y + 0).toNat, (pPos.x + 0).toNat) = some 77 :=
  (scoreProjection_spec sC3 pPos (0, 0) (by decide) (by decide) (by decide)
    (by decide) (by decide) (by decide)).1 77 (by decide) (by decide)

/-- **C3, counterexample.** The O piece `pZero` locks with its `(0,0)`
block landing on the in-bounds cell `(18,4)`, its payload *has* an entry
for that block — score 0 — and yet the per-cell map entry at `(18,4)`
keeps its old value 42 instead of being overwritten: the code only writes
payload scores that are strictly positive. -/
theorem scoreProjection_counterexample :
    (0, 0) ∈ pZero.Blocks ∧
    pZero.x + 0 = 4 ∧ pZero.y + 0 = 18 ∧
    lookupSD pZero.scoreData (pZero.rotation, 0, 0) = some 0 ∧
    sC3.contributionScores (18, 4) = some 42 ∧
    (updateContributionScoresFromPiece sC3 (some pZero)).contributionScores
      (18, 4) = some 42 ∧
    (updateContributionScoresFromPiece sC3 (some pZero)).contributionScores
      (18, 4) ≠ some 0 :=
  ⟨by decide, by decide, by decide, by decide, by decide, by decide, by decide⟩

/-! ## Hard drop with zero drop distance (claim C9) -/

/-- When the piece already collides one row below, the hard-drop loop
exits immediately with distance 0. -/
theorem dropDistance_zero (b : Board) (p : Piece)
    (h : HasCollision b p 0 1 = true) : dropDistance b p = 0 := by
  unfold dropDistance
  cases hf : (21 - p.y).toNat with
  | zero => rfl
  | succ n =>
    unfold dropDistanceAux
    norm_num [h]

/-- **C9.** For every non-game-over player state whose current piece
already collides one row below (maximum drop distance 0), `hard_drop`
still merges the piece into the board and runs the full lock sequence
(score projection, line clear, bonus, next-piece spawn) — yet returns
`false`, reporting that no state change occurred. -/
theorem hardDrop_zero_spec (s : PlayerGameState) (p : Piece)
    (hgo : s.isGameOver = false) (hp : s.currentPiece = some p)
    (hcol : HasCollision s.board p 0 1 = true) :
    ApplyPlayerInput s "hard_drop" =
      (handlePieceLock { s with board := MergePiece s.board p }, false) := by
  have hd : dropDistance s.board p = 0 := dropDistance_zero _ _ hcol
  simp [ApplyPlayerInput, hgo, hp, hd]

/-- Witness for `hardDrop_zero_spec` at the floor state `sFloor`. -/
theorem hardDrop_zero_spec_witness :
    ApplyPlayerInput sFloor "hard_drop" =
      (handlePieceLock { sFloor with board := MergePiece sFloor.board pOFloor },
       false) :=
  hardDrop_zero_spec sFloor pOFloor (by decide) (by decide) (by decide)

/-! ## The no-collision-at-origin invariant (claim C7) -/

/-- The collision invariant of a player state: unless the game-over flag
is set (by a spawn collision), the current piece does not collide at
offset `(0,0)`. -/
def NoOriginCollision (s : PlayerGameState) : Prop :=
  s.isGameOver = true ∨
    (s.currentPiece.all fun p => ! HasCollision s.board p 0 0) = true

/-- Moving one column left and testing at the origin is testing at
`(-1, 0)`. -/
theorem collision_moveLeft (b : Board) (p : Piece) :
    HasCollision b { p with x := p.x - 1 } 0 0 = HasCollision b p (-1) 0 := by
  unfold HasCollision Piece.Blocks
  dsimp only
  congr 1
  funext blk
  have hx : p.x - 1 + blk.1 + 0 = p.x + blk.1 + -1 := by ring
  have hy : p.y + blk.2 + 0 = p.y + blk.2 + 0 := rfl
  rw [hx]

/-- Moving one column right and testing at the origin is testing at
`(1, 0)`. -/
theorem collision_moveRight (b : Board) (p : Piece) :
    HasCollision b { p with x := p.x + 1 } 0 0 = HasCollision b p 1 0 := by
  unfold HasCollision Piece.Blocks
  dsimp only
  congr 1
  funext blk
  have hx : p.x + 1 + blk.1 + 0 = p.x + blk.1 + 1 := by ring
  rw [hx]

/-- Descending `d` rows and testing at the origin is testing at
`(0, d)`. -/
theorem collision_moveDown (b : Board) (p : Piece) (d : Int) :
    HasCollision b { p with y := p.y + d } 0 0 = HasCollision b p 0 d := by
  unfold HasCollision Piece.Blocks
  dsimp only
  congr 1
  funext blk
  have hx : p.x + blk.1 + 0 = p.x + blk.1 + 0 := rfl
  have hy : p.y + d + blk.2 + 0 = p.y + blk.2 + d := by ring
  rw [hy]

/-- `updateCurrentPieceScores` preserves the collision invariant. -/
theorem updateCPS_inv (s : PlayerGameState) (h : NoOriginCollision s) :
    NoOriginCollision (updateCurrentPieceScores s) := by
  unfold NoOriginCollision at h ⊢
  rw [(updateCPS_frame s).1, (updateCPS_frame s).2.1,
    (updateCPS_frame s).2.2.2.2.2.2.1]
  exact h

/-- The state `SpawnNewPiece` produces satisfies the collision invariant:
either the freshly spawned piece is collision-free or the game-over flag
was just set. -/
theorem spawnNewPiece_inv (s : PlayerGameState) :
    NoOriginCollision (SpawnNewPiece s) := by
  unfold NoOriginCollision SpawnNewPiece
  cases h : s.currentPiece with
  | none =>
    dsimp only
    split
    · next hcol => left; rfl
    · next hcol =>
      right
      rw [(updateCPS_frame _).1] at hcol
      rw [(updateCPS_frame _).1, (updateCPS_frame _).2.1]
      simp only [Option.all_some]
      simp_all
  | some p =>
    cases hn : s.nextPiece with
    | none => dsimp only; right; rfl
    | some np =>
      dsimp only
      split
      · next hcol => left; rfl
      · next hcol =>
        right
        rw [(updateCPS_frame _).1] at hcol
        rw [(updateCPS_frame _).1, (updateCPS_frame _).2.1]
        simp only [Option.all_some]
        simp_all

/-- `handlePieceLock` always re-establishes the collision invariant (it
ends by spawning). -/
theorem handlePieceLock_inv (s : PlayerGameState) :
    NoOriginCollision (handlePieceLock s) := by
  unfold handlePieceLock
  exact spawnNewPiece_inv _

/-- The trailing `updateCurrentPieceScores` step of `ApplyPlayerInput`
preserves the collision invariant. -/
theorem finalStep_inv (step : PlayerGameState × Bool) (c : Prop)
    [Decidable c] (h : NoOriginCollision step.1) :
    NoOriginCollision
      ((if c then (updateCurrentPieceScores step.1, step.2) else step).1) := by
  split
  · exact updateCPS_inv _ h
  · exact h

/-- The game-over check at the end of the hold branch establishes the
collision invariant in every case. -/
theorem holdCheck_inv (t : PlayerGameState) :
    NoOriginCollision
      (match t.currentPiece with
       | some cp =>
         if HasCollision t.board cp 0 0 then { t with isGameOver := true }
         else t
       | none => t) := by
  unfold NoOriginCollision
  cases h : t.currentPiece with
  | none =>
    simp only [h]
    right
    simp [h]
  | some cp =>
    simp only [h]
    by_cases hcol : HasCollision t.board cp 0 0 = true
    · simp only [hcol, ite_true, if_pos]
      left
      trivial
    · have hcol' : HasCollision t.board cp 0 0 = false := by simpa using hcol
      simp only [hcol', Bool.false_eq_true, if_neg, not_false_iff, ite_false]
      right
      simp [h, hcol']

/-- **C7.** Preservation of the collision invariant: for every player
state satisfying the invariant (as every reachable state does — spawning
establishes it) and every input action, after `ApplyPlayerInput` the
collision predicate at offset `(0,0)` is false for the resulting current
piece, except when the game-over flag is set (by a spawn collision during
this call or an earlier one). -/
theorem applyInput_collision_inv (s : PlayerGameState) (a : String)
    (hinv : NoOriginCollision s) :
    NoOriginCollision (ApplyPlayerInput s a).1 := by
  by_cases hgo : s.isGameOver = true
  · simp only [ApplyPlayerInput, hgo, ite_true, if_pos]
    exact hinv
  have hgo' : s.isGameOver = false := by simpa using hgo
  cases hp : s.currentPiece with
  | none =>
    simp only [ApplyPlayerInput, hgo', hp, Bool.false_eq_true, if_neg,
      not_false_iff]
    exact hinv
  | some p =>
    have hpcol : HasCollision s.board p 0 0 = false := by
      rcases hinv with h | h
      · exact absurd h hgo
      · rw [hp] at h
        simpa using h
    by_cases h1 : a = "left" ∨ a = "move_left"
    · rcases h1 with rfl | rfl <;>
      · by_cases hc : HasCollision s.board p (-1) 0 = true
        · simp [ApplyPlayerInput, hgo', hp, hc]
          exact hinv
        · have hc' : HasCollision s.board p (-1) 0 = false := by simpa using hc
          simp [ApplyPlayerInput, hgo', hp, hc']
          apply updateCPS_inv
          right
          simp [collision_moveLeft, hc']
    · by_cases h2 : a = "right" ∨ a = "move_right"
      · rcases h2 with rfl | rfl <;>
        · by_cases hc : HasCollision s.board p 1 0 = true
          · simp [ApplyPlayerInput, hgo', hp, hc]
            exact hinv
          · have hc' : HasCollision s.board p 1 0 = false := by simpa using hc
            simp [ApplyPlayerInput, hgo', hp, hc']
            apply updateCPS_inv
            right
            simp [collision_moveRight, hc']
      · by_cases h3 : a = "down" ∨ a = "soft_drop"
        · rcases h3 with rfl | rfl <;>
          · by_cases hc : HasCollision s.board p 0 1 = true
            · simp [ApplyPlayerInput, hgo', hp, hc]
              exact hinv
            · have hc' : HasCollision s.board p 0 1 = false := by simpa using hc
              simp [ApplyPlayerInput, hgo', hp, hc']
              apply updateCPS_inv
              right
              simp [collision_moveDown, hc']
        · by_cases h4 : a = "hard_drop"
          · subst h4
            simp [ApplyPlayerInput, hgo', hp]
            exact handlePieceLock_inv _
          · by_cases h5 : a = "rotate_right" ∨ a = "rotate"
            · rcases h5 with rfl | rfl <;>
              · by_cases hO : p.type = PieceType.O
                · simp [ApplyPlayerInput, hgo', hp, hO]
                  exact hinv
                · by_cases hc : HasCollision s.board
                      { p with rotation := Int.tmod (p.rotation + 90) 360 }
                      0 0 = true
                  · simp [ApplyPlayerInput, hgo', hp, hO, hc]
                    exact hinv
                  · have hc' : HasCollision s.board
                        { p with rotation := Int.tmod (p.rotation + 90) 360 }
                        0 0 = false := by simpa using hc
                    simp [ApplyPlayerInput, hgo', hp, hO, hc']
                    apply updateCPS_inv
                    right
                    simp [hc']
            · by_cases h6 : a = "rotate_left"
              · subst h6
                by_cases hO : p.type = PieceType.O
                · simp [ApplyPlayerInput, hgo', hp, hO]
                  exact hinv
                · by_cases hc : HasCollision s.board
                      { p with rotation := Int.tmod (p.rotation - 90 + 360) 360 }
                      0 0 = true
                  · simp [ApplyPlayerInput, hgo', hp, hO, hc]
                    exact hinv
                  · have hc' : HasCollision s.board
                        { p with rotation := Int.tmod (p.rotation - 90 + 360) 360 }
                        0 0 = false := by simpa using hc
                    simp [ApplyPlayerInput, hgo', hp, hO, hc']
                    apply updateCPS_inv
                    right
                    simp [hc']
              · by_cases h7 : a = "hold"
                · subst h7
                  cases hu : s.hasUsedHold with
                  | true =>
                    simp [ApplyPlayerInput, hgo', hp, hu, hpcol]
                    exact hinv
                  | false =>
                    cases hh : s.heldPiece with
                    | some hp2 =>
                      by_cases hc : HasCollision s.board
                          { hp2 with x := (spawnPieceAtCenter hp2.type).1,
                                     y := (spawnPieceAtCenter hp2.type).2,
                                     rotation := 0 } 0 0 = true
                      · simp [ApplyPlayerInput, hgo', hp, hu, hh, hc]
                        apply updateCPS_inv
                        unfold NoOriginCollision
                        left
                        rfl
                      · have hc' : HasCollision s.board
                            { hp2 with x := (spawnPieceAtCenter hp2.type).1,
                                       y := (spawnPieceAtCenter hp2.type).2,
                                       rotation := 0 } 0 0 = false := by
                          simpa using hc
                        simp [ApplyPlayerInput, hgo', hp, hu, hh, hc']
                        apply updateCPS_inv
                        unfold NoOriginCollision
                        right
                        simp [hc']
                    | none =>
                      cases hnx : s.nextPiece with
                      | some np =>
                        by_cases hc : HasCollision s.board
                            { np with x := (spawnPieceAtCenter np.type).1,
                                      y := (spawnPieceAtCenter np.type).2,
                                      rotation := 0 } 0 0 = true
                        · simp [ApplyPlayerInput, hgo', hp, hu, hh, hnx,
                            getNext_frame, hc]
                          apply updateCPS_inv
                          unfold NoOriginCollision
                          left
                          rfl
                        · have hc' : HasCollision s.board
                              { np with x := (spawnPieceAtCenter np.type).1,
                                        y := (spawnPieceAtCenter np.type).2,
                                        rotation := 0 } 0 0 = false := by
                            simpa using hc
                          simp [ApplyPlayerInput, hgo', hp, hu, hh, hnx,
                            getNext_frame, hc']
                          apply updateCPS_inv
                          unfold NoOriginCollision
                          right
                          simp [hc']
                      | none =>
                        simp [ApplyPlayerInput, hgo', hp, hu, hh, hnx,
                          getNext_frame, apply_ite PlayerGameState.currentPiece,
                          apply_ite Option.isSome]
                        apply updateCPS_inv
                        unfold NoOriginCollision
                        split
                        · left
                          rfl
                        · next hcth =>
                          right
                          simp [hcth]
                · simp [ApplyPlayerInput, hgo', hp, h1, h2, h3, h4, h5, h6, h7]
                  exact hinv

/-- Witness for `applyInput_collision_inv`: the live state `sFree`
satisfies the invariant, and it is preserved by a `left` input. -/
theorem applyInput_collision_inv_witness :
    NoOriginCollision sFree ∧
    NoOriginCollision (ApplyPlayerInput sFree "left").1 :=
  have h : NoOriginCollision sFree := Or.inr (by decide)
  ⟨h, applyInput_collision_inv sFree "left" h⟩

/-! ## Matchmaking by passcode (claim C6) -/

/-- `GetNextPieceFromQueue` keeps the player's identity. -/
theorem getNext_userID (s : PlayerGameState) :
    ((GetNextPieceFromQueue s).2).userID = s.userID := by
  cases h : getPieceScoreFromDeck s
      (popPieceType s.pieceQueue s.randGenerator).1 <;>
    simp [GetNextPieceFromQueue, h]

/-- `updateCurrentPieceScores` keeps the player's identity. -/
theorem updateCPS_userID (s : PlayerGameState) :
    (updateCurrentPieceScores s).userID = s.userID := by
  cases h : s.currentPiece <;> simp [updateCurrentPieceScores, h]

/-- `SpawnNewPiece` keeps the player's identity. -/
theorem spawnNewPiece_userID (s : PlayerGameState) :
    (SpawnNewPiece s).userID = s.userID := by
  cases h : s.currentPiece with
  | none =>
    simp [SpawnNewPiece, h, getNext_userID, updateCPS_userID,
      apply_ite PlayerGameState.userID]
  | some p =>
    cases hn : s.nextPiece <;>
      simp [SpawnNewPiece, h, hn, getNext_userID, updateCPS_userID,
        apply_ite PlayerGameState.userID]

/-- `NewPlayerGameState` names the state after its player. -/
theorem newPlayerGameState_userID (uid : String) (deck : Option Deck)
    (g : RNG) (now : Int) :
    (NewPlayerGameState uid deck g now).userID = uid := by
  simp [NewPlayerGameState, spawnNewPiece_userID]

/-- `NewPlayerGameStateWithDeckPlacements` names the state after its
player. -/
theorem newPWD_userID (uid : String) (deck : Option Deck) (repo : DeckRepo)
    (g : RNG) (now : Int) (st : PlayerGameState)
    (h : NewPlayerGameStateWithDeckPlacements uid deck repo g now = some st) :
    st.userID = uid := by
  cases deck with
  | none =>
    simp only [NewPlayerGameStateWithDeckPlacements, Option.some.injEq] at h
    rw [← h, newPlayerGameState_userID]
  | some d =>
    cases hr : repo d.id with
    | none => simp [NewPlayerGameStateWithDeckPlacements, hr] at h
    | some placements =>
      simp only [NewPlayerGameStateWithDeckPlacements, hr,
        Option.some.injEq] at h
      rw [← h, spawnNewPiece_userID]

/-- The fields of a freshly created session. -/
theorem newGameSession_fields (roomID p1ID : String) (deck : Option Deck)
    (repo : DeckRepo) (g : RNG) (now : Int) :
    (NewGameSession roomID p1ID deck repo g now).id = roomID ∧
    ((NewGameSession roomID p1ID deck repo g now).player1.map
      fun st => st.userID) = some p1ID ∧
    (NewGameSession roomID p1ID deck repo g now).player2 = none ∧
    (NewGameSession roomID p1ID deck repo g now).status = "waiting" := by
  cases h : NewPlayerGameStateWithDeckPlacements p1ID deck repo g now with
  | none => simp [NewGameSession, h, newPlayerGameState_userID]
  | some st => simp [NewGameSession, h, newPWD_userID _ _ _ _ _ _ h]

/-- The fields of a session after `SetPlayer2`. -/
theorem setPlayer2_fields (gs : GameSession) (p2ID : String)
    (deck : Option Deck) (repo : DeckRepo) (g : RNG) (now : Int) :
    ((SetPlayer2 gs p2ID deck repo g now).player2.map
      fun st => st.userID) = some p2ID ∧
    (SetPlayer2 gs p2ID deck repo g now).player1 = gs.player1 ∧
    (SetPlayer2 gs p2ID deck repo g now).status = gs.status ∧
    (SetPlayer2 gs p2ID deck repo g now).id = gs.id := by
  cases h : NewPlayerGameStateWithDeckPlacements p2ID deck repo g now with
  | none => simp [SetPlayer2, h, newPlayerGameState_userID]
  | some st => simp [SetPlayer2, h, newPWD_userID _ _ _ _ _ _ h]

/-- **C6.** `JoinRoomByPasscode` (with the database modelled as oracles
that succeed for the given deck id): a passcode whose length is outside
`3..20` (in particular the empty one) is rejected with an error and the
registry is untouched; a valid, unknown passcode creates a session whose
id is the passcode itself, with the requester as Player1, no Player2 and
status `waiting`, returning `(passcode, true)`; a valid, known passcode is
rejected when the session is not waiting, or Player2 is already set, or
the requester is Player1 — otherwise Player2 becomes the requester
(Player1 and the status unchanged) and `(passcode, false)` is returned. -/
theorem joinRoom_spec (db : String → Option Deck) (repo : DeckRepo)
    (g : RNG) (now : Int) (sm : SessionMgr) (pc pid did : String) :
    (¬ (3 ≤ pc.length ∧ pc.length ≤ 20) →
      (JoinRoomByPasscode db repo g now sm pc pid did).1 = sm ∧
      ∃ e, (JoinRoomByPasscode db repo g now sm pc pid did).2 =
        Except.error e) ∧
    (3 ≤ pc.length ∧ pc.length ≤ 20 →
      lookupSession sm.sessions pc = none →
      ∀ deck, db did = some deck →
        (JoinRoomByPasscode db repo g now sm pc pid did).2 =
          Except.ok (pc, true) ∧
        ∃ ns, lookupSession
            (JoinRoomByPasscode db repo g now sm pc pid did).1.sessions pc =
            some ns ∧
          ns.id = pc ∧ (ns.player1.map fun st => st.userID) = some pid ∧
          ns.player2 = none ∧ ns.status = "waiting") ∧
    (3 ≤ pc.length ∧ pc.length ≤ 20 →
      ∀ sess, lookupSession sm.sessions pc = some sess →
        (sess.status ≠ "waiting" →
          (JoinRoomByPasscode db repo g now sm pc pid did).1 = sm ∧
          ∃ e, (JoinRoomByPasscode db repo g now sm pc pid did).2 =
            Except.error e) ∧
        (sess.status = "waiting" → sess.player2.isSome = true →
          (JoinRoomByPasscode db repo g now sm pc pid did).1 = sm ∧
          ∃ e, (JoinRoomByPasscode db repo g now sm pc pid did).2 =
            Except.error e) ∧
        (sess.status = "waiting" → sess.player2 = none →
          (sess.player1.any fun p1 => decide (p1.userID = pid)) = true →
          (JoinRoomByPasscode db repo g now sm pc pid did).1 = sm ∧
          ∃ e, (JoinRoomByPasscode db repo g now sm pc pid did).2 =
            Except.error e) ∧
        (sess.status = "waiting" → sess.player2 = none →
          (sess.player1.any fun p1 => decide (p1.userID = pid)) = false →
          ∀ deck, db did = some deck →
            (JoinRoomByPasscode db repo g now sm pc pid did).2 =
              Except.ok (pc, false) ∧
            ∃ ns, lookupSession
                (JoinRoomByPasscode db repo g now sm pc pid did).1.sessions
                pc = some ns ∧
              (ns.player2.map fun st => st.userID) = some pid ∧
              ns.player1 = sess.player1 ∧ ns.status = sess.status ∧
              ns.id = sess.id)) := by
  have hlook0 : ∀ l gs, lookupSession (setSession l pc gs) pc = some gs := by
    intro l gs
    simp [setSession, lookupSession]
  refine ⟨?_, ?_, ?_⟩
  · intro hbad
    unfold JoinRoomByPasscode
    by_cases he : pc = ""
    · simp [he]
    · have hlen : pc.length < 3 ∨ 20 < pc.length := by omega
      simp [he, hlen]
  · rintro ⟨hl1, hl2⟩ hnone deck hdb
    have he : ¬ pc = "" := by
      intro h
      rw [h] at hl1
      simp at hl1
    have hlen : ¬ (pc.length < 3 ∨ 20 < pc.length) := by omega
    unfold JoinRoomByPasscode
    simp only [he, hlen, hnone, hdb, if_neg, not_false_iff, ite_false]
    refine ⟨by simp, ?_⟩
    exact ⟨_, hlook0 _ _, (newGameSession_fields pc pid (some deck) repo g now).1,
      (newGameSession_fields pc pid (some deck) repo g now).2.1,
      (newGameSession_fields pc pid (some deck) repo g now).2.2.1,
      (newGameSession_fields pc pid (some deck) repo g now).2.2.2⟩
  · rintro ⟨hl1, hl2⟩ sess hsess
    have he : ¬ pc = "" := by
      intro h
      rw [h] at hl1
      simp at hl1
    have hlen : ¬ (pc.length < 3 ∨ 20 < pc.length) := by omega
    refine ⟨?_, ?_, ?_, ?_⟩
    · intro hst
      unfold JoinRoomByPasscode
      simp [he, hlen, hsess, hst]
    · intro hst hp2
      unfold JoinRoomByPasscode
      simp [he, hlen, hsess, hst, hp2]
    · intro hst hp2 hown
      unfold JoinRoomByPasscode
      simp [he, hlen, hsess, hst, hp2, hown]
    · intro hst hp2 hown deck hdb
      unfold JoinRoomByPasscode
      simp only [he, hlen, hsess, hst, hp2, hown, hdb, if_neg,
        not_false_iff, ite_false, Option.isSome_none, Bool.false_eq_true]
      norm_num
      obtain ⟨a, ha, hau⟩ := Option.map_eq_some'.mp
        (setPlayer2_fields sess pid (some deck) repo g now).1
      exact ⟨_, hlook0 _ _, ⟨a, ha, hau⟩,
        (setPlayer2_fields sess pid (some deck) repo g now).2.1,
        ((setPlayer2_fields sess pid (some deck) repo g now).2.2.1).trans hst,
        (setPlayer2_fields sess pid (some deck) repo g now).2.2.2⟩

/-- Witness for `joinRoom_spec`: joining the empty registry with passcode
"room1" creates the session and reports `(room1, true)`. -/
theorem joinRoom_spec_witness :
    (JoinRoomByPasscode db0 repo0 gCtr 0 emptyMgr "room1" "alice" "deck1").2 =
      Except.ok ("room1", true) ∧
    ∃ ns, lookupSession
        (JoinRoomByPasscode db0 repo0 gCtr 0 emptyMgr "room1" "alice"
          "deck1").1.sessions "room1" = some ns ∧
      ns.id = "room1" ∧
      (ns.player1.map fun st => st.userID) = some "alice" ∧
      ns.player2 = none ∧ ns.status = "waiting" :=
  (joinRoom_spec db0 repo0 gCtr 0 emptyMgr "room1" "alice" "deck1").2.1
    (by decide) rfl ⟨"deck1", "alice"⟩ rfl

/-! ## Session status monotonicity (claim C8) -/

/-- Looking up after a `delete`. -/
theorem lookup_removeSession (l : List (String × GameSession))
    (pcA pc : String) :
    lookupSession (removeSession l pcA) pc =
      if pc = pcA then none else lookupSession l pc := by
  induction l with
  | nil => simp [removeSession, lookupSession]
  | cons kv rest ih =>
    by_cases hk : kv.1 = pcA
    · by_cases hpc : pc = pcA <;>
        simp [removeSession, lookupSession, hk, hpc, ih] at * <;>
        simp_all [removeSession]
    · by_cases hpc : pc = kv.1 <;>
        by_cases hpc2 : pc = pcA <;>
        simp_all [removeSession, lookupSession]

/-- Looking up after a `write`. -/
theorem lookup_setSession (l : List (String × GameSession))
    (pcA pc : String) (gs : GameSession) :
    lookupSession (setSession l pcA gs) pc =
      if pc = pcA then some gs else lookupSession l pc := by
  by_cases hpc : pc = pcA <;>
    simp [setSession, lookupSession, hpc, lookup_removeSession]

/-- The registry after `JoinRoomByPasscode`: untouched, or extended with a
fresh waiting session at a previously unknown passcode, or updated at an
existing passcode with the status preserved. -/
theorem joinRoom_registry (db : String → Option Deck) (repo : DeckRepo)
    (g : RNG) (now : Int) (sm : SessionMgr) (pc pid did : String) :
    (JoinRoomByPasscode db repo g now sm pc pid did).1 = sm ∨
    (lookupSession sm.sessions pc = none ∧
      ∃ ns, ns.status = "waiting" ∧
        (JoinRoomByPasscode db repo g now sm pc pid did).1 =
          ⟨setSession sm.sessions pc ns⟩) ∨
    (∃ sess, lookupSession sm.sessions pc = some sess ∧
      ∃ ns, ns.status = sess.status ∧
        (JoinRoomByPasscode db repo g now sm pc pid did).1 =
          ⟨setSession sm.sessions pc ns⟩) := by
  unfold JoinRoomByPasscode
  by_cases he : pc = ""
  · left; simp [he]
  · by_cases hlen : pc.length < 3 ∨ 20 < pc.length
    · left; simp [he, hlen]
    · cases hl : lookupSession sm.sessions pc with
      | none =>
        cases hdb : db did with
        | none => left; simp [he, hlen, hl, hdb]
        | some deck =>
          right; left
          refine ⟨rfl, NewGameSession pc pid (some deck) repo g now,
            (newGameSession_fields pc pid (some deck) repo g now).2.2.2, ?_⟩
          simp [he, hlen, hl, hdb]
      | some sess =>
        by_cases hst : sess.status = "waiting"
        · by_cases hp2 : sess.player2.isSome = true
          · left; simp [he, hlen, hl, hst, hp2]
          · by_cases hown :
                (sess.player1.any fun p1 => decide (p1.userID = pid)) = true
            · left; simp [he, hlen, hl, hst, hp2, hown]
            · cases hdb : db did with
              | none => left; simp [he, hlen, hl, hst, hp2, hown, hdb]
              | some deck =>
                right; right
                refine ⟨sess, rfl, SetPlayer2 sess pid (some deck) repo g now,
                  (setPlayer2_fields sess pid (some deck) repo g now).2.2.1,
                  ?_⟩
                simp [he, hlen, hl, hst, hp2, hown, hdb]
        · left; simp [he, hlen, hl, hst]

/-- The registry after `CheckAndStartGame`: untouched, or an existing
*waiting* session switched to `playing`. -/
theorem checkStart_registry (conn : String → Bool) (now : Int)
    (sm : SessionMgr) (pc : String) :
    CheckAndStartGame conn now sm pc = sm ∨
    (∃ sess, lookupSession sm.sessions pc = some sess ∧
      sess.status = "waiting" ∧
      CheckAndStartGame conn now sm pc =
        ⟨setSession sm.sessions pc
          { sess with status := "playing", startedAt := now }⟩) := by
  unfold CheckAndStartGame
  cases hl : lookupSession sm.sessions pc with
  | none => left; rfl
  | some sess =>
    by_cases hc : (sess.player1.isSome && sess.player2.isSome &&
        (sess.player1.any fun p => conn p.userID) &&
        (sess.player2.any fun p => conn p.userID) &&
        decide (sess.status = "waiting")) = true
    · right
      refine ⟨sess, rfl, ?_, ?_⟩
      · simp only [Bool.and_eq_true, decide_eq_true_eq] at hc
        exact hc.2
      · simp [hc]
    · left
      simp [hc]

/-- The registry after `EndGameSession`: untouched or with the passcode
removed. -/
theorem endGame_registry (now : Int) (sm : SessionMgr) (pc : String) :
    EndGameSession now sm pc = sm ∨
    EndGameSession now sm pc = ⟨removeSession sm.sessions pc⟩ := by
  unfold EndGameSession
  cases hl : lookupSession sm.sessions pc with
  | none => left; rfl
  | some sess =>
    by_cases hst : sess.status = "finished"
    · left; simp [hst]
    · right; simp [hst]

/-- The registry after `tickSession`: untouched, the passcode removed
(time-up), or the players auto-fallen with the status preserved. -/
theorem tickSession_registry (now : Int) (sm : SessionMgr) (pc : String) :
    tickSession now sm pc = sm ∨
    tickSession now sm pc = ⟨removeSession sm.sessions pc⟩ ∨
    (∃ sess, lookupSession sm.sessions pc = some sess ∧
      ∃ ns, ns.status = sess.status ∧
        tickSession now sm pc = ⟨setSession sm.sessions pc ns⟩) := by
  unfold tickSession
  cases hl : lookupSession sm.sessions pc with
  | none => left; rfl
  | some sess =>
    by_cases hst : sess.status = "playing"
    · by_cases htu : IsTimeUp sess now = true
      · rcases endGame_registry now sm pc with h | h
        · left; simp [hst, htu, h]
        · right; left; simp [hst, htu, h]
      · right; right
        refine ⟨sess, rfl,
          { sess with
            player1 := sess.player1.map fun st =>
              if st.isGameOver then st else (AutoFall st now).1,
            player2 := sess.player2.map fun st =>
              if st.isGameOver then st else (AutoFall st now).1 },
          rfl, ?_⟩
        simp [hst, htu]
    · left; simp [hst]

/-- Composing two forward status moves along `waiting → playing`. -/
theorem statusMove_trans (a b c : String)
    (h1 : b = a ∨ (a = "waiting" ∧ b = "playing"))
    (h2 : c = b ∨ (b = "waiting" ∧ c = "playing")) :
    c = a ∨ (a = "waiting" ∧ c = "playing") := by
  rcases h1 with rfl | ⟨ha, hb⟩
  · exact h2
  · rcases h2 with rfl | ⟨hb2, hc⟩
    · exact Or.inr ⟨ha, hb⟩
    · exact absurd (hb2.symm.trans hb) (by decide)

/-- A forward status move is rank-monotone and, when it changes the
status, goes exactly from `waiting` to `playing`. -/
theorem rank_of_statusMove (a b : String)
    (h : b = a ∨ (a = "waiting" ∧ b = "playing")) :
    statusRank a ≤ statusRank b ∧
      (b ≠ a → a = "waiting" ∧ b = "playing") := by
  rcases h with rfl | ⟨ha, hb⟩
  · exact ⟨le_refl _, fun hne => absurd rfl hne⟩
  · subst ha; subst hb
    exact ⟨by simp [statusRank], fun _ => ⟨rfl, rfl⟩⟩

/-- One `tickSession` call: every surviving session makes a forward
status move, and no session appears out of thin air. -/
theorem tickSession_step (now : Int) (sm : SessionMgr) (pc pcq : String) :
    (∀ s s', lookupSession sm.sessions pcq = some s →
      lookupSession (tickSession now sm pc).sessions pcq = some s' →
      (s'.status = s.status ∨
        (s.status = "waiting" ∧ s'.status = "playing"))) ∧
    (lookupSession sm.sessions pcq = none →
      lookupSession (tickSession now sm pc).sessions pcq = none) := by
  rcases tickSession_registry now sm pc with h | h | ⟨sess, hsess, ns, hns, h⟩
  · rw [h]
    refine ⟨fun s s' h1 h2 => ?_, fun h1 => h1⟩
    have := h1.symm.trans h2
    injection this with he
    exact Or.inl (he ▸ rfl)
  · rw [h]
    simp only [lookup_removeSession]
    by_cases hq : pcq = pc
    · simp only [hq, if_pos rfl]
      exact ⟨fun s s' _ h2 => Option.noConfusion h2, fun _ => rfl⟩
    · simp only [if_neg hq]
      refine ⟨fun s s' h1 h2 => ?_, fun h1 => h1⟩
      have := h1.symm.trans h2
      injection this with he
      exact Or.inl (he ▸ rfl)
  · rw [h]
    simp only [lookup_setSession]
    by_cases hq : pcq = pc
    · simp only [hq, if_pos rfl]
      subst hq
      refine ⟨fun s s' h1 h2 => ?_, fun h1 => by rw [h1] at hsess; cases hsess⟩
      injection h2 with h2e
      have h1e := Option.some.inj (hsess.symm.trans h1)
      exact Or.inl (by rw [← h2e, hns, h1e])
    · simp only [if_neg hq]
      refine ⟨fun s s' h1 h2 => ?_, fun h1 => h1⟩
      have := h1.symm.trans h2
      injection this with he
      exact Or.inl (he ▸ rfl)

/-- Folding `tickSession` over any list of passcodes keeps every
surviving session on a forward status move and creates no session. -/
theorem foldlTick_step (now : Int) (l : List String) (sm : SessionMgr)
    (pcq : String) :
    (∀ s s', lookupSession sm.sessions pcq = some s →
      lookupSession (l.foldl (tickSession now) sm).sessions pcq = some s' →
      (s'.status = s.status ∨
        (s.status = "waiting" ∧ s'.status = "playing"))) ∧
    (lookupSession sm.sessions pcq = none →
      lookupSession (l.foldl (tickSession now) sm).sessions pcq = none) := by
  induction l generalizing sm with
  | nil =>
    refine ⟨fun s s' h1 h2 => ?_, fun h1 => h1⟩
    have := h1.symm.trans h2
    injection this with he
    exact Or.inl (he ▸ rfl)
  | cons a rest ih =>
    simp only [List.foldl_cons]
    refine ⟨fun s s' h1 h2 => ?_, fun h1 =>
      (ih (tickSession now sm a)).2 ((tickSession_step now sm a pcq).2 h1)⟩
    cases hmid : lookupSession (tickSession now sm a).sessions pcq with
    | none =>
      have := (ih (tickSession now sm a)).2 hmid
      rw [this] at h2; cases h2
    | some mid =>
      exact statusMove_trans s.status mid.status s'.status
        ((tickSession_step now sm a pcq).1 s mid h1 hmid)
        ((ih (tickSession now sm a)).1 mid s' hmid h2)

/-- C8: For every session-manager operation (join, start-check, end,
tick) and every passcode, a session present before and after the
operation never moves its status backwards along
`waiting → playing → finished`: its rank is monotone and the only
possible change is `waiting → playing` (performed by `CheckAndStartGame`
only when the status is `waiting`; `EndGameSession` removes the session
from the registry, and nothing reverts a status).  Moreover any session
an operation creates starts as `waiting`. -/
theorem session_status_monotone (op : MgrOp) (sm : SessionMgr)
    (pcq : String) :
    (∀ s s', lookupSession sm.sessions pcq = some s →
        lookupSession (applyMgrOp op sm).sessions pcq = some s' →
        statusRank s.status ≤ statusRank s'.status ∧
          (s'.status ≠ s.status →
            s.status = "waiting" ∧ s'.status = "playing")) ∧
    (∀ s', lookupSession sm.sessions pcq = none →
        lookupSession (applyMgrOp op sm).sessions pcq = some s' →
        s'.status = "waiting") := by
  cases op with
  | join pc pid did db repo g now =>
    simp only [applyMgrOp]
    rcases joinRoom_registry db repo g now sm pc pid did with
      h | ⟨hnone, ns, hns, h⟩ | ⟨sess, hsess, ns, hns, h⟩
    · rw [h]
      refine ⟨fun s s' h1 h2 => ?_, fun s' h1 h2 => ?_⟩
      · have := h1.symm.trans h2
        injection this with he
        exact rank_of_statusMove s.status s'.status (Or.inl (he ▸ rfl))
      · rw [h1] at h2; cases h2
    · rw [h]
      simp only [lookup_setSession]
      by_cases hq : pcq = pc
      · subst hq
        refine ⟨fun s s' h1 _ => ?_, fun s' _ h2 => ?_⟩
        · rw [h1] at hnone; cases hnone
        · simp only [if_pos rfl] at h2
          injection h2 with h2e
          rw [← h2e, hns]
      · simp only [if_neg hq]
        refine ⟨fun s s' h1 h2 => ?_, fun s' h1 h2 => ?_⟩
        · have := h1.symm.trans h2
          injection this with he
          exact rank_of_statusMove s.status s'.status (Or.inl (he ▸ rfl))
        · rw [h1] at h2; cases h2
    · rw [h]
      simp only [lookup_setSession]
      by_cases hq : pcq = pc
      · subst hq
        refine ⟨fun s s' h1 h2 => ?_, fun s' h1 _ => ?_⟩
        · simp only [if_pos rfl] at h2
          injection h2 with h2e
          have h1e := Option.some.inj (hsess.symm.trans h1)
          exact rank_of_statusMove s.status s'.status
            (Or.inl (by rw [← h2e, hns, h1e]))
        · rw [h1] at hsess; cases hsess
      · simp only [if_neg hq]
        refine ⟨fun s s' h1 h2 => ?_, fun s' h1 h2 => ?_⟩
        · have := h1.symm.trans h2
          injection this with he
          exact rank_of_statusMove s.status s'.status (Or.inl (he ▸ rfl))
        · rw [h1] at h2; cases h2
  | checkStart pc conn now =>
    simp only [applyMgrOp]
    rcases checkStart_registry conn now sm pc with h | ⟨sess, hsess, hw, h⟩
    · rw [h]
      refine ⟨fun s s' h1 h2 => ?_, fun s' h1 h2 => ?_⟩
      · have := h1.symm.trans h2
        injection this with he
        exact rank_of_statusMove s.status s'.status (Or.inl (he ▸ rfl))
      · rw [h1] at h2; cases h2
    · rw [h]
      simp only [lookup_setSession]
      by_cases hq : pcq = pc
      · subst hq
        refine ⟨fun s s' h1 h2 => ?_, fun s' h1 _ => ?_⟩
        · simp only [if_pos rfl] at h2
          injection h2 with h2e
          have h1e := Option.some.inj (hsess.symm.trans h1)
          exact rank_of_statusMove s.status s'.status
            (Or.inr ⟨by rw [← h1e, hw], by rw [← h2e]⟩)
        · rw [h1] at hsess; cases hsess
      · simp only [if_neg hq]
        refine ⟨fun s s' h1 h2 => ?_, fun s' h1 h2 => ?_⟩
        · have := h1.symm.trans h2
          injection this with he
          exact rank_of_statusMove s.status s'.status (Or.inl (he ▸ rfl))
        · rw [h1] at h2; cases h2
  | endSession pc now =>
    simp only [applyMgrOp]
    rcases endGame_registry now sm pc with h | h
    · rw [h]
      refine ⟨fun s s' h1 h2 => ?_, fun s' h1 h2 => ?_⟩
      · have := h1.symm.trans h2
        injection this with he
        exact rank_of_statusMove s.status s'.status (Or.inl (he ▸ rfl))
      · rw [h1] at h2; cases h2
    · rw [h]
      simp only [lookup_removeSession]
      by_cases hq : pcq = pc
      · simp only [hq, if_pos rfl]
        exact ⟨fun s s' _ h2 => Option.noConfusion h2,
          fun s' _ h2 => Option.noConfusion h2⟩
      · simp only [if_neg hq]
        refine ⟨fun s s' h1 h2 => ?_, fun s' h1 h2 => ?_⟩
        · have := h1.symm.trans h2
          injection this with he
          exact rank_of_statusMove s.status s'.status (Or.inl (he ▸ rfl))
        · rw [h1] at h2; cases h2
  | tick now =>
    simp only [applyMgrOp, Tick]
    refine ⟨fun s s' h1 h2 => ?_, fun s' h1 h2 => ?_⟩
    · exact rank_of_statusMove s.status s'.status
        ((foldlTick_step now _ sm pcq).1 s s' h1 h2)
    · rw [(foldlTick_step now _ sm pcq).2 h1] at h2; cases h2

theorem session_status_monotone_witness :
    lookupSession mgrW.sessions "w" = some sessW ∧
    lookupSession
        (applyMgrOp (MgrOp.checkStart "w" (fun _ => true) 5) mgrW).sessions
        "w" =
      some { sessW with status := "playing", startedAt := 5 } ∧
    (statusRank sessW.status ≤
        statusRank
          ({ sessW with status := "playing", startedAt := 5 } :
            GameSession).status ∧
      (({ sessW with status := "playing", startedAt := 5 } :
            GameSession).status ≠ sessW.status →
        sessW.status = "waiting" ∧
          ({ sessW with status := "playing", startedAt := 5 } :
            GameSession).status = "playing")) :=
  ⟨rfl, rfl,
    (session_status_monotone (MgrOp.checkStart "w" (fun _ => true) 5) mgrW
        "w").1
      sessW { sessW with status := "playing", startedAt := 5 } rfl rfl⟩
